import Mathlib

/-!
Verification of the fantasy-league rules engine and its season-simulation
pipeline (files `src/lib/rules.ts`, `src/lib/lineup.ts`, and the league
server actions).

The TypeScript source is shallowly embedded: JavaScript numbers are
modelled by `ℚ` (all values manipulated by the engine are exact small
rationals), 32-bit integer arithmetic is modelled by `Nat` with explicit
`% 2 ^ 32` reductions, JavaScript objects used as string-keyed records are
modelled by association lists, and the Prisma database is modelled by a
record of row lists with every server action turned into an explicit
state-passing function.
-/

namespace FantasyLite

/-- Element of `roster.starterSlots` in a validated `RuleSetConfig`. -/
structure RosterSlot where
  key : String
  label : String
  count : Nat
deriving DecidableEq, Repr

/-- Element of `scoring.stats` in a validated `RuleSetConfig`. -/
structure StatDef where
  key : String
  label : String
  min : ℚ
  max : ℚ
  decimals : Nat
deriving DecidableEq, Repr

/-- Element of `scoring.rules` in a validated `RuleSetConfig`. -/
structure ScoringRule where
  statKey : String
  pointsPerUnit : ℚ
deriving DecidableEq, Repr

/-- The `roster` section of a validated config. -/
structure RosterConfig where
  starterSlots : List RosterSlot
  benchSlots : Nat
deriving DecidableEq, Repr

/-- The `scoring` section of a validated config. -/
structure ScoringConfig where
  stats : List StatDef
  rules : List ScoringRule
deriving DecidableEq, Repr

/-- The `schedule` section of a validated config.  The `type` field is the
literal `"roundRobin"` and carries no information, so only `weeks` is kept. -/
structure ScheduleConfig where
  weeks : Nat
deriving DecidableEq, Repr

/-- A validated `RuleSetConfig` (the output type of `ruleSetConfigSchema`).
The `matchup` section is the literal `{format: "H2H_POINTS"}` and carries no
information, so it is omitted. -/
structure RuleSetConfig where
  roster : RosterConfig
  scoring : ScoringConfig
  schedule : ScheduleConfig
deriving DecidableEq, Repr

/-- `StarterSlotInstance` from `src/lib/rules.ts`. -/
structure StarterSlotInstance where
  slotKey : String
  slotIndex : Nat
  label : String
deriving DecidableEq, Repr

/-- Inner loop of `listStarterSlots`: `for (let slotIndex = 0; slotIndex <
slot.count; ...) slots.push({...})`, transliterated as a fold that appends
one instance per index. -/
def pushSlotInstances (slot : RosterSlot) (acc : List StarterSlotInstance) :
    List StarterSlotInstance :=
  (List.range slot.count).foldl
    (fun acc slotIndex => acc ++ [⟨slot.key, slotIndex, slot.label⟩]) acc

/-- `listStarterSlots` from `src/lib/rules.ts`: the imperative double loop
pushing `{slotKey, slotIndex, label}` records in declaration order. -/
def listStarterSlots (config : RuleSetConfig) : List StarterSlotInstance :=
  config.roster.starterSlots.foldl (fun acc slot => pushSlotInstances slot acc) []

/-- `totalRosterSize` from `src/lib/rules.ts`. -/
def totalRosterSize (config : RuleSetConfig) : Nat :=
  (listStarterSlots config).length + config.roster.benchSlots

/-- A stat line (`Record<string, number>` in the source), modelled as an
association list; the source only builds records with pairwise distinct
keys. -/
abbrev StatLine := List (String × ℚ)

/-- Record lookup `stats[k] ?? 0`: the value bound to `k`, or `0` when the
key is absent. -/
def statLineGet (stats : StatLine) (k : String) : ℚ :=
  (stats.lookup k).getD 0

/-- `scoreFromStats` from `src/lib/rules.ts`: `score += (stats[rule.statKey]
?? 0) * rule.pointsPerUnit` over all scoring rules, starting from `0`. -/
def scoreFromStats (config : RuleSetConfig) (stats : StatLine) : ℚ :=
  config.scoring.rules.foldl
    (fun score rule => score + statLineGet stats rule.statKey * rule.pointsPerUnit) 0

/-- UTF-16 code units of a character, as produced by JavaScript
`charCodeAt`: the scalar value itself below `0x10000`, otherwise the
surrogate pair. -/
def utf16Units (c : Char) : List Nat :=
  if c.toNat < 0x10000 then [c.toNat]
  else [0xD800 + (c.toNat - 0x10000) / 0x400, 0xDC00 + (c.toNat - 0x10000) % 0x400]

/-- One step of `fnv1a32`: `hash ^= code; hash = Math.imul(hash,
0x01000193)`.  Both operands stay below `2 ^ 32`, and `Math.imul` keeps the
low 32 bits of the product. -/
def fnv1a32Step (hash code : Nat) : Nat :=
  ((hash ^^^ code) * 0x01000193) % 2 ^ 32

/-- `fnv1a32` from `src/lib/rules.ts`, folding over the UTF-16 code units of
the input string.  The final `>>> 0` is the identity on the modelled
unsigned value. -/
def fnv1a32 (input : String) : Nat :=
  (input.data.flatMap utf16Units).foldl fnv1a32Step 0x811c9dc5

/-- One call of the closure returned by `mulberry32`.  The mutable captured
`seed` is threaded explicitly; JavaScript keeps it as an exact float
integer (it is only reduced modulo `2 ^ 32` by the bitwise operators), so
the state is an unbounded `Nat` and every bitwise step reduces first. -/
def mulberry32Next (seed : Nat) : Nat × ℚ :=
  let seed' := seed + 0x6d2b79f5
  let t0 := seed' % 2 ^ 32
  let t1 := ((t0 ^^^ (t0 / 2 ^ 15)) * (t0 ||| 1)) % 2 ^ 32
  let t2 := t1 ^^^ ((t1 + ((t1 ^^^ (t1 / 2 ^ 7)) * (t1 ||| 61)) % 2 ^ 32) % 2 ^ 32)
  (seed', (((t2 ^^^ (t2 / 2 ^ 14)) % 2 ^ 32 : Nat) : ℚ) / 4294967296)

/-- JavaScript `Math.round`: round half toward positive infinity. -/
def jsRound (x : ℚ) : Int :=
  ⌊x + 1 / 2⌋

/-- Body of the `simulateAthleteStats` loop for one stat: draw `t` from the
generator, scale into `[min, max]`, and round to `decimals` places. -/
def simulateStatValue (stat : StatDef) (t : ℚ) : ℚ :=
  let raw := stat.min + t * (stat.max - stat.min)
  let factor : ℚ := 10 ^ stat.decimals
  (jsRound (raw * factor) : ℚ) / factor

/-- Loop of `simulateAthleteStats`, threading the generator state and
pushing one record entry per declared stat. -/
def simulateStatsLoop (stats : List StatDef) (seed : Nat) (acc : StatLine) : StatLine :=
  match stats with
  | [] => acc
  | stat :: rest =>
    let (seed', t) := mulberry32Next seed
    simulateStatsLoop rest seed' (acc ++ [(stat.key, simulateStatValue stat t)])

/-- `simulateAthleteStats` from `src/lib/rules.ts`: seed `mulberry32` with
`fnv1a32 seed` and draw one bounded rounded value per declared stat, in
declaration order. -/
def simulateAthleteStats (config : RuleSetConfig) (seed : String) : StatLine :=
  simulateStatsLoop config.scoring.stats (fnv1a32 seed) []

/-- A scheduled fixture, the element type of `generateRoundRobinSchedule`'s
result. -/
structure Fixture where
  week : Nat
  homeTeamId : String
  awayTeamId : String
deriving DecidableEq, Repr

/-- Sentinel inserted for odd team counts. -/
def byeId : String := "__BYE__"

/-- The rotation step at the end of each round: `const fixed = rotation[0];
const rest = rotation.slice(1); rest.unshift(rest.pop()!); ...` — keep the
first position fixed and move the last element of the rest to its front. -/
def rotateStep (rotation : List String) : List String :=
  match rotation with
  | [] => []
  | fixed :: rest => fixed :: (rest.getLast?.toList ++ rest.dropLast)

/-- Fixtures produced by the inner loop of one round: pair position `i`
with position `n - 1 - i` for `i < n / 2`, drop pairings that involve the
bye sentinel, and orient home/away by round parity. -/
def roundFixtures (rotation : List String) (round : Nat) : List Fixture :=
  (List.range (rotation.length / 2)).filterMap fun i =>
    let a := rotation.getD i ""
    let b := rotation.getD (rotation.length - 1 - i) ""
    if a = byeId ∨ b = byeId then none
    else if round % 2 = 0 then some ⟨round + 1, a, b⟩
    else some ⟨round + 1, b, a⟩

/-- Outer loop of `generateRoundRobinSchedule`: one `roundFixtures` block
per round, rotating between rounds. -/
def scheduleRounds (rotation : List String) (round fuel : Nat) : List Fixture :=
  match fuel with
  | 0 => []
  | fuel + 1 =>
    roundFixtures rotation round ++ scheduleRounds (rotateStep rotation) (round + 1) fuel

/-- `generateRoundRobinSchedule` from `src/lib/rules.ts`.  Fewer than two
ids yield the empty schedule; an odd count is padded with the bye
sentinel. -/
def generateRoundRobinSchedule (teamIds : List String) (weeks : Nat) : List Fixture :=
  if teamIds.length < 2 then []
  else
    let ids := if teamIds.length % 2 = 1 then teamIds ++ [byeId] else teamIds
    scheduleRounds ids 0 weeks

/-- Number of fixtures of `sched` that pair teams `x` and `y` (in either
orientation). -/
def pairCount (sched : List Fixture) (x y : String) : Nat :=
  sched.countP fun f =>
    (f.homeTeamId = x ∧ f.awayTeamId = y) ∨ (f.homeTeamId = y ∧ f.awayTeamId = x)

/-- Number of fixtures of `sched` in week `w` that involve team `x`. -/
def weekTeamCount (sched : List Fixture) (w : Nat) (x : String) : Nat :=
  sched.countP fun f => f.week = w ∧ (f.homeTeamId = x ∨ f.awayTeamId = x)

/-- Number of fixtures of `sched` scheduled in week `w`. -/
def weekFixtureCount (sched : List Fixture) (w : Nat) : Nat :=
  sched.countP fun f => f.week = w

/-- One issue reported by the `superRefine` pass of `ruleSetConfigSchema`
(`code: custom` is the only code used and is omitted). -/
structure ConfigIssue where
  path : List String
  message : String
deriving DecidableEq, Repr

/-- The starter-slot loop of the `superRefine` pass: walk the declarations
with the set of keys seen so far, reporting one duplicate-key issue per
repeated occurrence. -/
def rosterDupIssues : List RosterSlot → List String → List ConfigIssue
  | [], _ => []
  | slot :: rest, seen =>
    (if slot.key ∈ seen then
      [⟨["roster", "starterSlots"], "Duplicate roster slot key: " ++ slot.key⟩]
     else []) ++ rosterDupIssues rest (slot.key :: seen)

/-- The stat loop of the `superRefine` pass: for each stat, report
`min > max` first, then a duplicate-key issue, then record the key as
seen. -/
def statIssues : List StatDef → List String → List ConfigIssue
  | [], _ => []
  | stat :: rest, seen =>
    ((if stat.max < stat.min then
        [⟨["scoring", "stats"], "Stat " ++ stat.key ++ " has min > max"⟩]
      else []) ++
     (if stat.key ∈ seen then
        [⟨["scoring", "stats"], "Duplicate stat key: " ++ stat.key⟩]
      else [])) ++ statIssues rest (stat.key :: seen)

/-- The rule loop of the `superRefine` pass: a rule whose `statKey` is not
among the declared stat keys yields an unknown-key issue. -/
def ruleIssues (statKeys : List String) (rules : List ScoringRule) : List ConfigIssue :=
  rules.flatMap fun rule =>
    if rule.statKey ∈ statKeys then []
    else [⟨["scoring", "rules"], "Scoring rule references unknown statKey: " ++ rule.statKey⟩]

/-- All issues reported by the `superRefine` pass of `ruleSetConfigSchema`
on a structurally valid config. -/
def semanticIssues (config : RuleSetConfig) : List ConfigIssue :=
  rosterDupIssues config.roster.starterSlots [] ++
    statIssues config.scoring.stats [] ++
    ruleIssues (config.scoring.stats.map (·.key)) config.scoring.rules

/-- Semantic half of `ruleSetConfigSchema.parse`: succeed exactly when the
`superRefine` pass reports no issue. -/
def validateSemantics (config : RuleSetConfig) : Except (List ConfigIssue) RuleSetConfig :=
  match semanticIssues config with
  | [] => .ok config
  | issues => .error issues

/-- Characters admitted by the roster-slot key pattern `[A-Za-z0-9_-]`. -/
def isSlotKeyChar (c : Char) : Bool :=
  c.isAlpha || c.isDigit || c = '_' || c = '-'

/-- Characters admitted by the stat key pattern `[A-Za-z0-9_.-]`. -/
def isStatKeyChar (c : Char) : Bool :=
  c.isAlpha || c.isDigit || c = '_' || c = '.' || c = '-'

/-- Raw (pre-validation) roster slot: numbers arrive as arbitrary
JavaScript numbers, integrality and range still unchecked. -/
structure RawRosterSlot where
  key : String
  label : String
  count : Int
deriving DecidableEq, Repr

/-- Raw stat declaration; `decimals` is optional in the schema and defaults
to `0`. -/
structure RawStatDef where
  key : String
  label : String
  min : ℚ
  max : ℚ
  decimals : Option Int
deriving DecidableEq, Repr

/-- Raw scoring rule. -/
structure RawScoringRule where
  statKey : String
  pointsPerUnit : ℚ
deriving DecidableEq, Repr

/-- Raw `RuleSetConfig` as it reaches `ruleSetConfigSchema`: `benchSlots`
is optional (default `0`), the two literal fields are arbitrary strings
until checked. -/
structure RawRuleSetConfig where
  starterSlots : List RawRosterSlot
  benchSlots : Option Int
  stats : List RawStatDef
  rules : List RawScoringRule
  scheduleType : String
  weeks : Int
  matchupFormat : String
deriving DecidableEq, Repr

/-- Structural check of one roster slot (`rosterSlotSchema`): key length
1–24 over the slot-key alphabet, label length 1–48, integer count 1–20. -/
def checkRosterSlot (s : RawRosterSlot) : Option RosterSlot :=
  if 1 ≤ s.key.length ∧ s.key.length ≤ 24 ∧ s.key.data.all isSlotKeyChar ∧
      1 ≤ s.label.length ∧ s.label.length ≤ 48 ∧ 1 ≤ s.count ∧ s.count ≤ 20 then
    some ⟨s.key, s.label, s.count.toNat⟩
  else none

/-- Structural check of one stat declaration (`statSchema`); a missing
`decimals` defaults to `0` before the 0–3 range check.  The `finite`
checks on `min` and `max` hold for every rational. -/
def checkStatDef (s : RawStatDef) : Option StatDef :=
  let d := s.decimals.getD 0
  if 1 ≤ s.key.length ∧ s.key.length ≤ 32 ∧ s.key.data.all isStatKeyChar ∧
      1 ≤ s.label.length ∧ s.label.length ≤ 48 ∧ 0 ≤ d ∧ d ≤ 3 then
    some ⟨s.key, s.label, s.min, s.max, d.toNat⟩
  else none

/-- Structural check of one scoring rule (`scoringRuleSchema`). -/
def checkScoringRule (r : RawScoringRule) : Option ScoringRule :=
  if 1 ≤ r.statKey.length ∧ r.statKey.length ≤ 32 then
    some ⟨r.statKey, r.pointsPerUnit⟩
  else none

/-- Check every element of a list, failing when any element fails. -/
def checkAll (f : α → Option β) : List α → Option (List β)
  | [] => some []
  | a :: rest =>
    match f a, checkAll f rest with
    | some b, some bs => some (b :: bs)
    | _, _ => none

/-- Structural half of `ruleSetConfigSchema`: field checks of the object
schemas, the `.min(1)` nonemptiness checks on the three arrays, the
`benchSlots` default and 0–50 range, the `weeks` 1–52 range, and the two
literal fields. -/
def checkStructure (raw : RawRuleSetConfig) : Option RuleSetConfig :=
  let bench := raw.benchSlots.getD 0
  match checkAll checkRosterSlot raw.starterSlots, checkAll checkStatDef raw.stats,
      checkAll checkScoringRule raw.rules with
  | some slots, some stats, some rules =>
    if 1 ≤ raw.starterSlots.length ∧ 0 ≤ bench ∧ bench ≤ 50 ∧
        1 ≤ raw.stats.length ∧ 1 ≤ raw.rules.length ∧
        raw.scheduleType = "roundRobin" ∧ 1 ≤ raw.weeks ∧ raw.weeks ≤ 52 ∧
        raw.matchupFormat = "H2H_POINTS" then
      some ⟨⟨slots, bench.toNat⟩, ⟨stats, rules⟩, ⟨raw.weeks.toNat⟩⟩
    else none
  | _, _, _ => none

/-- `ruleSetConfigSchema.parse` on structured input: the structural pass
(`schema_violation` on failure) followed by the `superRefine` pass
(`semantic_violation` on failure). -/
def parseRuleSetConfig (raw : RawRuleSetConfig) : Except (List ConfigIssue) RuleSetConfig :=
  match checkStructure raw with
  | none => .error [⟨[], "schema_violation"⟩]
  | some config => validateSemantics config

/-- A `League` row, with the `ruleSet` relation inlined as the raw config
it stores (actions always fetch the league with `include: {ruleSet:
true}`). -/
structure League where
  id : String
  config : RawRuleSetConfig
  currentWeek : Nat
  commissionerId : String
deriving DecidableEq, Repr

/-- A `Team` row. -/
structure Team where
  id : String
  leagueId : String
  ownerId : String
deriving DecidableEq, Repr

/-- An `Athlete` row; `createdAt` orders the auto-fill pass. -/
structure Athlete where
  id : String
  teamId : String
  createdAt : Nat
deriving DecidableEq, Repr

/-- A `Lineup` row; `lockedAt` is the lock timestamp (`null` = OPEN). -/
structure Lineup where
  id : String
  teamId : String
  week : Nat
  lockedAt : Option Nat
deriving DecidableEq, Repr

/-- A `LineupSlot` row. -/
structure LineupSlot where
  id : String
  lineupId : String
  slotKey : String
  slotIndex : Nat
  athleteId : Option String
deriving DecidableEq, Repr

/-- A `Matchup` row; `status` is `"SCHEDULED"` or `"FINAL"`. -/
structure Matchup where
  id : String
  leagueId : String
  week : Nat
  homeTeamId : String
  awayTeamId : String
  status : String
deriving DecidableEq, Repr

/-- A `MatchupResult` row (unique per `matchupId` in the schema). -/
structure MatchupResult where
  matchupId : String
  homeScore : ℚ
  awayScore : ℚ
deriving DecidableEq, Repr

/-- An `AthleteWeekStat` row; the JSON-serialised stat line is modelled by
the stat line itself. -/
structure AthleteWeekStat where
  leagueId : String
  week : Nat
  athleteId : String
  stats : StatLine
deriving DecidableEq, Repr

/-- The persisted state the server actions operate on, plus a counter
modelling the id generator of the data layer. -/
structure Db where
  leagues : List League
  teams : List Team
  athletes : List Athlete
  lineups : List Lineup
  lineupSlots : List LineupSlot
  matchups : List Matchup
  matchupResults : List MatchupResult
  athleteWeekStats : List AthleteWeekStat
  nextId : Nat
deriving DecidableEq, Repr

/-- Draw a fresh row id from the id generator. -/
def freshId (db : Db) : String × Db :=
  ("row" ++ toString db.nextId, { db with nextId := db.nextId + 1 })

/-- Errors of the lineup/simulate actions (`LineupError` in the spec). -/
inductive LineupErr where
  | notFound
  | forbidden
  | locked
  | badAthlete
  | duplicate
  | incomplete
  | noMatchup
deriving DecidableEq, Repr

/-- Create one empty `LineupSlot` row per required instance. -/
def createSlots (lineupId : String) : List StarterSlotInstance → Db → Db
  | [], db => db
  | s :: rest, db =>
    let (sid, db1) := freshId db
    createSlots lineupId rest
      { db1 with lineupSlots := db1.lineupSlots ++ [⟨sid, lineupId, s.slotKey, s.slotIndex, none⟩] }

/-- `ensureLineup` from `src/lib/lineup.ts`: upsert the `(teamId, week)`
lineup (creating it with its required slots when absent), then create any
required slot instance still missing. -/
def ensureLineup (teamId : String) (week : Nat) (config : RuleSetConfig) (db : Db) :
    Lineup × Db :=
  let required := listStarterSlots config
  match db.lineups.find? (fun l => l.teamId == teamId && l.week == week) with
  | some lineup =>
    let slots := db.lineupSlots.filter (fun s => s.lineupId == lineup.id)
    let missing := required.filter fun r =>
      !(slots.any fun s => s.slotKey == r.slotKey && s.slotIndex == r.slotIndex)
    (lineup, createSlots lineup.id missing db)
  | none =>
    let (lid, db1) := freshId db
    let lineup : Lineup := ⟨lid, teamId, week, none⟩
    (lineup, createSlots lid required { db1 with lineups := db1.lineups ++ [lineup] })

/-- Point update of one slot's `athleteId`. -/
def setSlotAthlete (slotId : String) (athleteId : Option String) (db : Db) : Db :=
  { db with lineupSlots := db.lineupSlots.map fun s =>
      if s.id == slotId then { s with athleteId := athleteId } else s }

/-- `updateLineupSlotAction` from the play server actions: access checks,
the lock check, athlete-ownership and duplicate checks, then the slot
update. -/
def updateLineupSlotAction (user lineupSlotId : String) (athleteId : Option String)
    (db : Db) : Except LineupErr Unit × Db :=
  match db.lineupSlots.find? (fun s => s.id == lineupSlotId) with
  | none => (.error .notFound, db)
  | some slot =>
  match db.lineups.find? (fun l => l.id == slot.lineupId) with
  | none => (.error .notFound, db)
  | some lineup =>
  match db.teams.find? (fun t => t.id == lineup.teamId) with
  | none => (.error .notFound, db)
  | some team =>
  if team.ownerId ≠ user then (.error .forbidden, db)
  else if lineup.lockedAt.isSome then (.error .locked, db)
  else
    match athleteId with
    | some aid =>
      match db.athletes.find? (fun a => a.id == aid) with
      | none => (.error .badAthlete, db)
      | some athlete =>
        if athlete.teamId ≠ lineup.teamId then (.error .badAthlete, db)
        else if db.lineupSlots.any fun s =>
            s.lineupId == slot.lineupId && s.athleteId == some aid && !(s.id == lineupSlotId) then
          (.error .duplicate, db)
        else (.ok (), setSlotAthlete lineupSlotId athleteId db)
    | none => (.ok (), setSlotAthlete lineupSlotId none db)

/-- Point update setting one lineup's `lockedAt`. -/
def setLineupLocked (lineupId : String) (now : Nat) (db : Db) : Db :=
  { db with lineups := db.lineups.map fun l =>
      if l.id == lineupId then { l with lockedAt := some now } else l }

/-- `lockLineupAction` from the play server actions: access checks, the
lock check, the completeness check, then the `lockedAt` update; `now`
models `new Date()`. -/
def lockLineupAction (user lineupId : String) (now : Nat) (db : Db) :
    Except LineupErr (Option Nat) × Db :=
  match db.lineups.find? (fun l => l.id == lineupId) with
  | none => (.error .notFound, db)
  | some lineup =>
  match db.teams.find? (fun t => t.id == lineup.teamId) with
  | none => (.error .notFound, db)
  | some team =>
  if team.ownerId ≠ user then (.error .forbidden, db)
  else if lineup.lockedAt.isSome then (.error .locked, db)
  else
    let slots := db.lineupSlots.filter (fun s => s.lineupId == lineupId)
    if 0 < (slots.filter (fun s => s.athleteId.isNone)).length then (.error .incomplete, db)
    else (.ok (some now), setLineupLocked lineupId now db)

/-- Stable insertion of an athlete into a `createdAt`-sorted list. -/
def insertByCreated (a : Athlete) : List Athlete → List Athlete
  | [] => [a]
  | b :: rest =>
    if a.createdAt ≤ b.createdAt then a :: b :: rest else b :: insertByCreated a rest

/-- `orderBy: { createdAt: "asc" }` on a list of athletes. -/
def sortByCreated (l : List Athlete) : List Athlete :=
  l.foldr insertByCreated []

/-- Result of `simulateMatchupAction`; `parseFailed` models the exception
thrown by `parseRuleSetConfig` on an invalid stored config. -/
inductive SimResult where
  | err (e : LineupErr)
  | ok (matchupId : String) (homeScore awayScore : ℚ) (alreadyFinal : Bool)
  | parseFailed
deriving DecidableEq, Repr

/-- One assignment of the auto-fill transaction: missing slot number `idx`
receives `available[idx] ?? available[0] ?? null`. -/
def assignSlot (available : List String) (db : Db) (p : Nat × LineupSlot) : Db :=
  setSlotAthlete p.2.id ((available[p.1]?).orElse (fun _ => available[0]?)) db

/-- Auto-fill pass of `simulateMatchupAction`: assign the opponent's
unused roster athletes (in `createdAt` order) to the opponent's unfilled
slots. -/
def autofillOpponent (opponent : Lineup) (db : Db) : Db :=
  let oppSlots := db.lineupSlots.filter (fun s => s.lineupId == opponent.id)
  let missingSlots := oppSlots.filter (fun s => s.athleteId.isNone)
  if missingSlots.isEmpty then db
  else
    let used := oppSlots.filterMap (fun s => s.athleteId)
    let available :=
      ((sortByCreated (db.athletes.filter (fun a => a.teamId == opponent.teamId))).map
        (·.id)).filter (fun id => !(used.contains id))
    missingSlots.enum.foldl (assignSlot available) db

/-- Stat-line provisioning pass of `simulateMatchupAction`: create an
`AthleteWeekStat` row, seeded with `leagueId:week:athleteId`, for every
roster athlete that has none yet. -/
def ensureWeekStats (config : RuleSetConfig) (leagueId : String) (week : Nat)
    (athleteIds : List String) (db : Db) : Db :=
  let toCreate := athleteIds.filter fun id =>
    !(db.athleteWeekStats.any fun s =>
      s.leagueId == leagueId && s.week == week && s.athleteId == id)
  { db with athleteWeekStats := db.athleteWeekStats ++ toCreate.map fun id =>
      ⟨leagueId, week, id,
        simulateAthleteStats config (leagueId ++ ":" ++ toString week ++ ":" ++ id)⟩ }

/-- `scoreTeam` from `simulateMatchupAction`: total the scores of the
slots' athletes, skipping empty slots and athletes without a stat line. -/
def scoreTeamSlots (config : RuleSetConfig) (byAthlete : String → Option StatLine)
    (slots : List LineupSlot) : ℚ :=
  slots.foldl
    (fun total s =>
      match s.athleteId with
      | none => total
      | some aid =>
        match byAthlete aid with
        | none => total
        | some line => total + scoreFromStats config line)
    0

/-- Mark one matchup `FINAL`. -/
def setMatchupFinal (matchupId : String) (db : Db) : Db :=
  { db with matchups := db.matchups.map fun m =>
      if m.id == matchupId then { m with status := "FINAL" } else m }

/-- `simulateMatchupAction` from the play server actions, as a transition
on the persisted state. -/
def simulateMatchupAction (user leagueId teamId : String) (db : Db) : SimResult × Db :=
  match db.teams.find? (fun t => t.id == teamId) with
  | none => (.err .notFound, db)
  | some team =>
  if team.ownerId ≠ user then (.err .forbidden, db)
  else
  match db.leagues.find? (fun l => l.id == leagueId) with
  | none => (.err .notFound, db)
  | some league =>
  if league.id ≠ team.leagueId then (.err .notFound, db)
  else
  match parseRuleSetConfig league.config with
  | .error _ => (.parseFailed, db)
  | .ok config =>
  let week := league.currentWeek
  match db.matchups.find? (fun m =>
      m.leagueId == leagueId && m.week == week &&
        (m.homeTeamId == teamId || m.awayTeamId == teamId)) with
  | none => (.err .noMatchup, db)
  | some matchup =>
  match db.matchupResults.find? (fun r => r.matchupId == matchup.id) with
  | some result => (.ok matchup.id result.homeScore result.awayScore true, db)
  | none =>
    let eh := ensureLineup matchup.homeTeamId week config db
    let homeLineup := eh.1
    let db1 := eh.2
    let ea := ensureLineup matchup.awayTeamId week config db1
    let awayLineup := ea.1
    let db2 := ea.2
    let homeSlots := db2.lineupSlots.filter (fun s => s.lineupId == homeLineup.id)
    let awaySlots := db2.lineupSlots.filter (fun s => s.lineupId == awayLineup.id)
    let isUserHome := matchup.homeTeamId == teamId
    let userSlots := if isUserHome then homeSlots else awaySlots
    let opponentLineup := if isUserHome then awayLineup else homeLineup
    if userSlots.any (fun s => s.athleteId.isNone) then (.err .incomplete, db2)
    else
      let db3 := autofillOpponent opponentLineup db2
      let rosterIds := (db3.athletes.filter fun a =>
        a.teamId == homeLineup.teamId || a.teamId == awayLineup.teamId).map (·.id)
      let db4 := ensureWeekStats config leagueId week rosterIds db3
      let byAthlete := fun aid =>
        if rosterIds.contains aid then
          (db4.athleteWeekStats.find? fun r =>
            r.leagueId == leagueId && r.week == week && r.athleteId == aid).map (·.stats)
        else none
      let finalHomeSlots := db4.lineupSlots.filter (fun s => s.lineupId == homeLineup.id)
      let finalAwaySlots := db4.lineupSlots.filter (fun s => s.lineupId == awayLineup.id)
      let homeScore := scoreTeamSlots config byAthlete finalHomeSlots
      let awayScore := scoreTeamSlots config byAthlete finalAwaySlots
      let db5 := setMatchupFinal matchup.id
        { db4 with matchupResults := db4.matchupResults ++ [⟨matchup.id, homeScore, awayScore⟩] }
      (.ok matchup.id homeScore awayScore false, db5)

/-- Result of `generateScheduleAction`: the redirect target, or the
`parseRuleSetConfig` exception. -/
inductive GenScheduleResult where
  | redirect (path : String)
  | parseFailed
deriving DecidableEq, Repr

/-- Create one `Matchup` row per generated fixture. -/
def createMatchups (leagueId : String) : List Fixture → Db → Db
  | [], db => db
  | f :: rest, db =>
    let (mid, db1) := freshId db
    createMatchups leagueId rest
      { db1 with matchups :=
          db1.matchups ++ [⟨mid, leagueId, f.week, f.homeTeamId, f.awayTeamId, "SCHEDULED"⟩] }

/-- `generateScheduleAction` from the league server actions: commissioner
checks, the two-team precondition, the frozen-schedule check on `FINAL`
matchups, then wholesale delete of the league's results and matchups and
regeneration of the round-robin schedule. -/
def generateScheduleAction (user leagueId : String) (db : Db) : GenScheduleResult × Db :=
  match db.leagues.find? (fun l => l.id == leagueId) with
  | none => (.redirect "/dashboard", db)
  | some league =>
  if league.commissionerId ≠ user then (.redirect ("/leagues/" ++ leagueId), db)
  else
  match parseRuleSetConfig league.config with
  | .error _ => (.parseFailed, db)
  | .ok config =>
  let teamIds := (db.teams.filter (fun t => t.leagueId == leagueId)).map (·.id)
  if teamIds.length < 2 then
    (.redirect ("/leagues/" ++ leagueId ++ "?error=need_teams"), db)
  else if 0 < db.matchups.countP (fun m => m.leagueId == leagueId && m.status == "FINAL") then
    (.redirect ("/leagues/" ++ leagueId ++ "?error=locked"), db)
  else
    let db1 := { db with matchupResults := db.matchupResults.filter fun r =>
        !(db.matchups.any fun m => m.id == r.matchupId && m.leagueId == leagueId) }
    let db2 := { db1 with matchups := db1.matchups.filter fun m => !(m.leagueId == leagueId) }
    let db3 := createMatchups leagueId
      (generateRoundRobinSchedule teamIds config.schedule.weeks) db2
    (.redirect ("/leagues/" ++ leagueId), db3)

/-- `starterRuleSetConfig` from `src/lib/rules.ts` (the seeded demo
config), used as a concrete test vector. -/
def starterRuleSetConfig : RuleSetConfig :=
  { roster :=
      { starterSlots := [⟨"A", "Slot A", 3⟩, ⟨"B", "Slot B", 2⟩]
        benchSlots := 3 }
    scoring :=
      { stats :=
          [⟨"points", "Points", 4, 30, 0⟩, ⟨"assists", "Assists", 0, 10, 0⟩,
            ⟨"blocks", "Blocks", 0, 5, 0⟩]
        rules := [⟨"points", 1⟩, ⟨"assists", 2⟩, ⟨"blocks", 3⟩] }
    schedule := { weeks := 8 } }

theorem foldl_append_singleton (f : α → β) :
    ∀ (l : List α) (acc : List β), l.foldl (fun a x => a ++ [f x]) acc = acc ++ l.map f
  | [], acc => by simp
  | x :: rest, acc => by
    simp only [List.foldl_cons, List.map_cons]
    rw [foldl_append_singleton f rest (acc ++ [f x])]
    simp

theorem foldl_append_flat (g : α → List β) :
    ∀ (l : List α) (acc : List β), l.foldl (fun a x => a ++ g x) acc = acc ++ l.flatMap g
  | [], acc => by simp
  | x :: rest, acc => by
    simp only [List.foldl_cons, List.flatMap_cons]
    rw [foldl_append_flat g rest (acc ++ g x)]
    simp

theorem pushSlotInstances_eq (slot : RosterSlot) (acc : List StarterSlotInstance) :
    pushSlotInstances slot acc =
      acc ++ (List.range slot.count).map fun i => ⟨slot.key, i, slot.label⟩ :=
  foldl_append_singleton _ _ _

/-- C4: `listStarterSlots` emits, for each starter slot declaration in
declaration order, exactly `count` instances with `slotIndex` running over
`0..count-1` and carrying the declaration's label, and `totalRosterSize`
is the sum of the starter counts plus `benchSlots`. -/
theorem listStarterSlots_spec (config : RuleSetConfig) :
    listStarterSlots config =
      config.roster.starterSlots.flatMap
        (fun s => (List.range s.count).map fun i => ⟨s.key, i, s.label⟩) ∧
    totalRosterSize config =
      (config.roster.starterSlots.map (·.count)).sum + config.roster.benchSlots := by
  have hlist : listStarterSlots config =
      config.roster.starterSlots.flatMap
        (fun s => (List.range s.count).map fun i => ⟨s.key, i, s.label⟩) := by
    unfold listStarterSlots
    have := foldl_append_flat
      (fun s : RosterSlot => (List.range s.count).map
        fun i => (⟨s.key, i, s.label⟩ : StarterSlotInstance))
      config.roster.starterSlots []
    simpa [pushSlotInstances_eq] using this
  refine ⟨hlist, ?_⟩
  unfold totalRosterSize
  rw [hlist]
  congr 1
  induction config.roster.starterSlots with
  | nil => simp
  | cons s rest ih => simp [List.flatMap_cons, ih]

theorem foldl_add_map (f : α → ℚ) :
    ∀ (l : List α) (init : ℚ), l.foldl (fun a x => a + f x) init = init + (l.map f).sum
  | [], init => by simp
  | x :: rest, init => by
    simp only [List.foldl_cons, List.map_cons, List.sum_cons]
    rw [foldl_add_map f rest (init + f x)]
    ring

/-- C3: `scoreFromStats` is the sum over the scoring rules of the stat
value bound to the rule's key (zero when the key is absent, with no
failure mode) times the rule's `pointsPerUnit`. -/
theorem scoreFromStats_spec (config : RuleSetConfig) (stats : StatLine) :
    scoreFromStats config stats =
      (config.scoring.rules.map fun rule =>
        (match stats.lookup rule.statKey with
          | some v => v
          | none => 0) * rule.pointsPerUnit).sum := by
  unfold scoreFromStats
  rw [foldl_add_map (fun rule : ScoringRule =>
    statLineGet stats rule.statKey * rule.pointsPerUnit) config.scoring.rules 0]
  rw [zero_add]
  have h : (fun rule : ScoringRule => statLineGet stats rule.statKey * rule.pointsPerUnit) =
      fun rule =>
        (match stats.lookup rule.statKey with
          | some v => v
          | none => 0) * rule.pointsPerUnit := by
    funext rule
    unfold statLineGet
    cases stats.lookup rule.statKey <;> rfl
  rw [h]

/-- C2: `simulateAthleteStats` is deterministic — two invocations on equal
configs and equal seed strings produce identical stat lines (same keys
bound to the same values). -/
theorem simulateAthleteStats_deterministic (c1 c2 : RuleSetConfig) (s1 s2 : String)
    (hc : c1 = c2) (hs : s1 = s2) :
    simulateAthleteStats c1 s1 = simulateAthleteStats c2 s2 := by
  rw [hc, hs]

theorem simulateAthleteStats_deterministic_witness :
    simulateAthleteStats starterRuleSetConfig "leagueA:1:athleteX" =
      simulateAthleteStats starterRuleSetConfig "leagueA:1:athleteX" :=
  simulateAthleteStats_deterministic starterRuleSetConfig starterRuleSetConfig
    "leagueA:1:athleteX" "leagueA:1:athleteX" rfl rfl

theorem rosterDupIssues_mem (k : String) :
    ∀ (slots : List RosterSlot) (seen : List String),
      (k ∈ seen ∧ k ∈ slots.map (·.key)) ∨ 2 ≤ (slots.map (·.key)).count k →
      (⟨["roster", "starterSlots"], "Duplicate roster slot key: " ++ k⟩ : ConfigIssue) ∈
        rosterDupIssues slots seen
  | [], seen => by
    intro h
    rcases h with ⟨_, hmem⟩ | hcount
    · simp at hmem
    · simp [List.count_nil] at hcount
  | slot :: rest, seen => by
    intro h
    unfold rosterDupIssues
    rw [List.mem_append]
    by_cases hk : slot.key = k
    · by_cases hseen : k ∈ seen
      · left
        simp [hk, hseen]
      · right
        apply rosterDupIssues_mem k rest (slot.key :: seen)
        left
        refine ⟨hk ▸ List.mem_cons_self _ _, ?_⟩
        rcases h with ⟨hs, _⟩ | hcount
        · exact absurd hs hseen
        · have hc : (List.map (·.key) (slot :: rest)).count k =
              (List.map (·.key) rest).count k + 1 := by
            simp [List.count_cons, hk]
          exact List.count_pos_iff.mp (by omega)
    · right
      apply rosterDupIssues_mem k rest (slot.key :: seen)
      rcases h with ⟨hs, hmem⟩ | hcount
      · left
        refine ⟨List.mem_cons_of_mem _ hs, ?_⟩
        rcases (by simpa using hmem : k = slot.key ∨ ∃ a ∈ rest, a.key = k) with h1 | ⟨a, ha, hak⟩
        · exact absurd h1.symm hk
        · exact List.mem_map.2 ⟨a, ha, hak⟩
      · right
        have hc : (List.map (·.key) (slot :: rest)).count k =
            (List.map (·.key) rest).count k := by
          simp [List.count_cons, hk]
        omega

theorem statIssues_dup_mem (k : String) :
    ∀ (stats : List StatDef) (seen : List String),
      (k ∈ seen ∧ k ∈ stats.map (·.key)) ∨ 2 ≤ (stats.map (·.key)).count k →
      (⟨["scoring", "stats"], "Duplicate stat key: " ++ k⟩ : ConfigIssue) ∈
        statIssues stats seen
  | [], seen => by
    intro h
    rcases h with ⟨_, hmem⟩ | hcount
    · simp at hmem
    · simp [List.count_nil] at hcount
  | stat :: rest, seen => by
    intro h
    unfold statIssues
    rw [List.mem_append, List.mem_append]
    by_cases hk : stat.key = k
    · by_cases hseen : k ∈ seen
      · left
        right
        simp [hk, hseen]
      · right
        apply statIssues_dup_mem k rest (stat.key :: seen)
        left
        refine ⟨hk ▸ List.mem_cons_self _ _, ?_⟩
        rcases h with ⟨hs, _⟩ | hcount
        · exact absurd hs hseen
        · have hc : (List.map (·.key) (stat :: rest)).count k =
              (List.map (·.key) rest).count k + 1 := by
            simp [List.count_cons, hk]
          exact List.count_pos_iff.mp (by omega)
    · right
      apply statIssues_dup_mem k rest (stat.key :: seen)
      rcases h with ⟨hs, hmem⟩ | hcount
      · left
        refine ⟨List.mem_cons_of_mem _ hs, ?_⟩
        rcases (by simpa using hmem : k = stat.key ∨ ∃ a ∈ rest, a.key = k) with h1 | ⟨a, ha, hak⟩
        · exact absurd h1.symm hk
        · exact List.mem_map.2 ⟨a, ha, hak⟩
      · right
        have hc : (List.map (·.key) (stat :: rest)).count k =
            (List.map (·.key) rest).count k := by
          simp [List.count_cons, hk]
        omega

theorem statIssues_minmax_mem (stat : StatDef) :
    ∀ (stats : List StatDef) (seen : List String), stat ∈ stats → stat.max < stat.min →
      (⟨["scoring", "stats"], "Stat " ++ stat.key ++ " has min > max"⟩ : ConfigIssue) ∈
        statIssues stats seen
  | [], _, h, _ => absurd h (List.not_mem_nil _)
  | head :: rest, seen, h, hlt => by
    unfold statIssues
    rw [List.mem_append, List.mem_append]
    rcases List.mem_cons.1 h with rfl | hmem
    · left
      left
      simp [hlt]
    · right
      exact statIssues_minmax_mem stat rest (head.key :: seen) hmem hlt

theorem ruleIssues_mem (rule : ScoringRule) (statKeys : List String)
    (rules : List ScoringRule) (hmem : rule ∈ rules) (hkey : rule.statKey ∉ statKeys) :
    (⟨["scoring", "rules"],
        "Scoring rule references unknown statKey: " ++ rule.statKey⟩ : ConfigIssue) ∈
      ruleIssues statKeys rules := by
  unfold ruleIssues
  rw [List.mem_flatMap]
  refine ⟨rule, hmem, ?_⟩
  simp [hkey]

theorem mem_semanticIssues_not_ok (config : RuleSetConfig) (issue : ConfigIssue)
    (h : issue ∈ semanticIssues config) : (validateSemantics config).isOk = false := by
  unfold validateSemantics
  cases hs : semanticIssues config with
  | nil => rw [hs] at h; exact absurd h (List.not_mem_nil _)
  | cons a rest => rfl

/-- C5: on one config, every duplicate roster slot key, duplicate stat key,
stat with `min > max`, and scoring rule with an undeclared `statKey` each
make validation fail with a semantic issue whose message names the
offending key, and all such issues are reported together in the single
issue list of that validation pass. -/
theorem semanticIssues_spec (config : RuleSetConfig) :
    (∀ k, 2 ≤ (config.roster.starterSlots.map (·.key)).count k →
      (validateSemantics config).isOk = false ∧
      (⟨["roster", "starterSlots"], "Duplicate roster slot key: " ++ k⟩ : ConfigIssue) ∈
        semanticIssues config) ∧
    (∀ k, 2 ≤ (config.scoring.stats.map (·.key)).count k →
      (validateSemantics config).isOk = false ∧
      (⟨["scoring", "stats"], "Duplicate stat key: " ++ k⟩ : ConfigIssue) ∈
        semanticIssues config) ∧
    (∀ stat ∈ config.scoring.stats, stat.max < stat.min →
      (validateSemantics config).isOk = false ∧
      (⟨["scoring", "stats"], "Stat " ++ stat.key ++ " has min > max"⟩ : ConfigIssue) ∈
        semanticIssues config) ∧
    (∀ rule ∈ config.scoring.rules, rule.statKey ∉ config.scoring.stats.map (·.key) →
      (validateSemantics config).isOk = false ∧
      (⟨["scoring", "rules"],
          "Scoring rule references unknown statKey: " ++ rule.statKey⟩ : ConfigIssue) ∈
        semanticIssues config) := by
  refine ⟨fun k hk => ?_, fun k hk => ?_, fun stat hmem hlt => ?_, fun rule hmem hkey => ?_⟩
  · have h := rosterDupIssues_mem k config.roster.starterSlots [] (Or.inr hk)
    have hmem : (⟨["roster", "starterSlots"],
        "Duplicate roster slot key: " ++ k⟩ : ConfigIssue) ∈ semanticIssues config := by
      unfold semanticIssues
      exact List.mem_append.2 (Or.inl (List.mem_append.2 (Or.inl h)))
    exact ⟨mem_semanticIssues_not_ok config _ hmem, hmem⟩
  · have h := statIssues_dup_mem k config.scoring.stats [] (Or.inr hk)
    have hmem : (⟨["scoring", "stats"],
        "Duplicate stat key: " ++ k⟩ : ConfigIssue) ∈ semanticIssues config := by
      unfold semanticIssues
      exact List.mem_append.2 (Or.inl (List.mem_append.2 (Or.inr h)))
    exact ⟨mem_semanticIssues_not_ok config _ hmem, hmem⟩
  · have h := statIssues_minmax_mem stat config.scoring.stats [] hmem hlt
    have hmem2 : (⟨["scoring", "stats"],
        "Stat " ++ stat.key ++ " has min > max"⟩ : ConfigIssue) ∈ semanticIssues config := by
      unfold semanticIssues
      exact List.mem_append.2 (Or.inl (List.mem_append.2 (Or.inr h)))
    exact ⟨mem_semanticIssues_not_ok config _ hmem2, hmem2⟩
  · have h := ruleIssues_mem rule (config.scoring.stats.map (·.key))
      config.scoring.rules hmem hkey
    have hmem2 : (⟨["scoring", "rules"],
        "Scoring rule references unknown statKey: " ++ rule.statKey⟩ : ConfigIssue) ∈
          semanticIssues config := by
      unfold semanticIssues
      exact List.mem_append.2 (Or.inr h)
    exact ⟨mem_semanticIssues_not_ok config _ hmem2, hmem2⟩

/-- Config with all four semantic violations at once, used to witness the
validation theorem. -/
def fourViolationConfig : RuleSetConfig :=
  { roster := { starterSlots := [⟨"QB", "Quarterback", 1⟩, ⟨"QB", "Quarterback 2", 1⟩]
                benchSlots := 0 }
    scoring := { stats := [⟨"pts", "Points", 5, 2, 0⟩, ⟨"pts", "Points 2", 0, 1, 0⟩]
                 rules := [⟨"nonexistent", 1⟩] }
    schedule := { weeks := 1 } }

theorem semanticIssues_spec_witness :
    ((validateSemantics fourViolationConfig).isOk = false ∧
      (⟨["roster", "starterSlots"], "Duplicate roster slot key: " ++ "QB"⟩ : ConfigIssue) ∈
        semanticIssues fourViolationConfig) ∧
    ((validateSemantics fourViolationConfig).isOk = false ∧
      (⟨["scoring", "stats"], "Duplicate stat key: " ++ "pts"⟩ : ConfigIssue) ∈
        semanticIssues fourViolationConfig) ∧
    ((validateSemantics fourViolationConfig).isOk = false ∧
      (⟨["scoring", "stats"], "Stat " ++ "pts" ++ " has min > max"⟩ : ConfigIssue) ∈
        semanticIssues fourViolationConfig) ∧
    ((validateSemantics fourViolationConfig).isOk = false ∧
      (⟨["scoring", "rules"],
          "Scoring rule references unknown statKey: " ++ "nonexistent"⟩ : ConfigIssue) ∈
        semanticIssues fourViolationConfig) :=
  ⟨(semanticIssues_spec fourViolationConfig).1 "QB" (by decide),
    (semanticIssues_spec fourViolationConfig).2.1 "pts" (by decide),
    (semanticIssues_spec fourViolationConfig).2.2.1 ⟨"pts", "Points", 5, 2, 0⟩
      (by decide) (by norm_num),
    (semanticIssues_spec fourViolationConfig).2.2.2 ⟨"nonexistent", 1⟩
      (by decide) (by decide)⟩

theorem checkAll_forall₂ (f : α → Option β) :
    ∀ (l : List α) (l' : List β), checkAll f l = some l' →
      List.Forall₂ (fun a b => f a = some b) l l'
  | [], l' => by
    intro h
    unfold checkAll at h
    cases h
    exact List.Forall₂.nil
  | a :: rest, l' => by
    intro h
    unfold checkAll at h
    cases hf : f a with
    | none => rw [hf] at h; simp at h
    | some b =>
      rw [hf] at h
      cases hr : checkAll f rest with
      | none => rw [hr] at h; simp at h
      | some bs =>
        rw [hr] at h
        cases h
        exact List.Forall₂.cons hf (checkAll_forall₂ f rest bs hr)

theorem checkStatDef_default (r : RawStatDef) (s : StatDef) (h : checkStatDef r = some s)
    (hnone : r.decimals = none) : s.decimals = 0 := by
  unfold checkStatDef at h
  rw [hnone] at h
  simp only [Option.getD_none] at h
  split at h
  · cases h
    rfl
  · cases h

/-- C10: structural validation rejects an empty `starterSlots`, `stats` or
`rules` array, while an absent `benchSlots` and an absent stat `decimals`
are accepted and default to `0` in the validated config. -/
theorem structuralDefaults_spec (raw : RawRuleSetConfig) :
    (raw.starterSlots = [] → ∃ e, parseRuleSetConfig raw = .error e) ∧
    (raw.stats = [] → ∃ e, parseRuleSetConfig raw = .error e) ∧
    (raw.rules = [] → ∃ e, parseRuleSetConfig raw = .error e) ∧
    (∀ cfg, parseRuleSetConfig raw = .ok cfg →
      (raw.benchSlots = none → cfg.roster.benchSlots = 0) ∧
      List.Forall₂ (fun (r : RawStatDef) (s : StatDef) => r.decimals = none → s.decimals = 0)
        raw.stats cfg.scoring.stats) := by
  have hfail : ∀ h : checkStructure raw = none, ∃ e, parseRuleSetConfig raw = .error e := by
    intro h
    refine ⟨[⟨[], "schema_violation"⟩], ?_⟩
    unfold parseRuleSetConfig
    rw [h]
  refine ⟨fun hempty => ?_, fun hempty => ?_, fun hempty => ?_, fun cfg hok => ?_⟩
  · apply hfail
    unfold checkStructure
    split
    · rw [if_neg]
      intro hcond
      rw [hempty] at hcond
      simp at hcond
    · rfl
  · apply hfail
    unfold checkStructure
    split
    · rw [if_neg]
      intro hcond
      rw [hempty] at hcond
      simp at hcond
    · rfl
  · apply hfail
    unfold checkStructure
    split
    · rw [if_neg]
      intro hcond
      rw [hempty] at hcond
      simp at hcond
    · rfl
  · unfold parseRuleSetConfig at hok
    cases hcs : checkStructure raw with
    | none => rw [hcs] at hok; cases hok
    | some cfg0 =>
      rw [hcs] at hok
      have hok2 : validateSemantics cfg0 = .ok cfg := hok
      have hcfg : cfg0 = cfg := by
        unfold validateSemantics at hok2
        split at hok2
        · cases hok2; rfl
        · cases hok2
      subst hcfg
      unfold checkStructure at hcs
      split at hcs
      · rename_i slots stats rules hslots hstats hrules
        dsimp only [] at hcs
        split at hcs
        · cases hcs
          constructor
          · intro hnone
            simp [hnone]
          · exact (checkAll_forall₂ checkStatDef raw.stats stats hstats).imp
              fun a b hab => checkStatDef_default a b hab
        · cases hcs
      · cases hcs

/-- Raw config with `benchSlots` and every `decimals` absent, otherwise
valid. -/
def rawDefaultsConfig : RawRuleSetConfig :=
  { starterSlots := [⟨"A", "Slot A", 1⟩]
    benchSlots := none
    stats := [⟨"points", "Points", 0, 10, none⟩]
    rules := [⟨"points", 1⟩]
    scheduleType := "roundRobin"
    weeks := 8
    matchupFormat := "H2H_POINTS" }

/-- Raw config with an empty `starterSlots` array. -/
def rawEmptySlotsConfig : RawRuleSetConfig :=
  { rawDefaultsConfig with starterSlots := [] }

/-- Raw config with an empty `stats` array. -/
def rawEmptyStatsConfig : RawRuleSetConfig :=
  { rawDefaultsConfig with stats := [] }

/-- Raw config with an empty `rules` array. -/
def rawEmptyRulesConfig : RawRuleSetConfig :=
  { rawDefaultsConfig with rules := [] }

/-- The validated form of `rawDefaultsConfig`. -/
def defaultsConfigParsed : RuleSetConfig :=
  { roster := { starterSlots := [⟨"A", "Slot A", 1⟩], benchSlots := 0 }
    scoring := { stats := [⟨"points", "Points", 0, 10, 0⟩], rules := [⟨"points", 1⟩] }
    schedule := { weeks := 8 } }

theorem structuralDefaults_spec_witness :
    ((∃ e, parseRuleSetConfig rawEmptySlotsConfig = .error e) ∧
      (∃ e, parseRuleSetConfig rawEmptyStatsConfig = .error e) ∧
      (∃ e, parseRuleSetConfig rawEmptyRulesConfig = .error e)) ∧
    defaultsConfigParsed.roster.benchSlots = 0 ∧
    List.Forall₂ (fun (r : RawStatDef) (s : StatDef) => r.decimals = none → s.decimals = 0)
      rawDefaultsConfig.stats defaultsConfigParsed.scoring.stats :=
  have hok : parseRuleSetConfig rawDefaultsConfig = .ok defaultsConfigParsed := by rfl
  have h4 := (structuralDefaults_spec rawDefaultsConfig).2.2.2 defaultsConfigParsed hok
  ⟨⟨(structuralDefaults_spec rawEmptySlotsConfig).1 rfl,
      (structuralDefaults_spec rawEmptyStatsConfig).2.1 rfl,
      (structuralDefaults_spec rawEmptyRulesConfig).2.2.1 rfl⟩,
    h4.1 rfl, h4.2⟩

theorem createSlots_lineups (lid : String) :
    ∀ (ms : List StarterSlotInstance) (db : Db), (createSlots lid ms db).lineups = db.lineups
  | [], _ => rfl
  | _ :: rest, db => createSlots_lineups lid rest _

theorem createSlots_matchupResults (lid : String) :
    ∀ (ms : List StarterSlotInstance) (db : Db),
      (createSlots lid ms db).matchupResults = db.matchupResults
  | [], _ => rfl
  | _ :: rest, db => createSlots_matchupResults lid rest _

theorem createSlots_matchups (lid : String) :
    ∀ (ms : List StarterSlotInstance) (db : Db), (createSlots lid ms db).matchups = db.matchups
  | [], _ => rfl
  | _ :: rest, db => createSlots_matchups lid rest _

theorem ensureLineup_matchupResults (teamId : String) (week : Nat) (config : RuleSetConfig)
    (db : Db) : (ensureLineup teamId week config db).2.matchupResults = db.matchupResults := by
  unfold ensureLineup
  cases db.lineups.find? (fun l => l.teamId == teamId && l.week == week) with
  | some lineup => exact createSlots_matchupResults _ _ _
  | none => exact createSlots_matchupResults _ _ _

theorem ensureLineup_matchups (teamId : String) (week : Nat) (config : RuleSetConfig)
    (db : Db) : (ensureLineup teamId week config db).2.matchups = db.matchups := by
  unfold ensureLineup
  cases db.lineups.find? (fun l => l.teamId == teamId && l.week == week) with
  | some lineup => exact createSlots_matchups _ _ _
  | none => exact createSlots_matchups _ _ _

theorem ensureLineup_lineups_mem (teamId : String) (week : Nat) (config : RuleSetConfig)
    (db : Db) (l : Lineup) (h : l ∈ db.lineups) :
    l ∈ (ensureLineup teamId week config db).2.lineups := by
  unfold ensureLineup
  cases db.lineups.find? (fun l => l.teamId == teamId && l.week == week) with
  | some lineup => rw [createSlots_lineups]; exact h
  | none => rw [createSlots_lineups]; exact List.mem_append_left _ h

theorem foldl_assignSlot_lineups (available : List String) :
    ∀ (l : List (Nat × LineupSlot)) (db : Db),
      (l.foldl (assignSlot available) db).lineups = db.lineups
  | [], _ => rfl
  | _ :: rest, db => foldl_assignSlot_lineups available rest _

theorem foldl_assignSlot_matchupResults (available : List String) :
    ∀ (l : List (Nat × LineupSlot)) (db : Db),
      (l.foldl (assignSlot available) db).matchupResults = db.matchupResults
  | [], _ => rfl
  | _ :: rest, db => foldl_assignSlot_matchupResults available rest _

theorem foldl_assignSlot_matchups (available : List String) :
    ∀ (l : List (Nat × LineupSlot)) (db : Db),
      (l.foldl (assignSlot available) db).matchups = db.matchups
  | [], _ => rfl
  | _ :: rest, db => foldl_assignSlot_matchups available rest _

theorem autofillOpponent_lineups (opponent : Lineup) (db : Db) :
    (autofillOpponent opponent db).lineups = db.lineups := by
  unfold autofillOpponent
  dsimp only []
  split
  · rfl
  · exact foldl_assignSlot_lineups _ _ _

theorem autofillOpponent_matchupResults (opponent : Lineup) (db : Db) :
    (autofillOpponent opponent db).matchupResults = db.matchupResults := by
  unfold autofillOpponent
  dsimp only []
  split
  · rfl
  · exact foldl_assignSlot_matchupResults _ _ _

theorem autofillOpponent_matchups (opponent : Lineup) (db : Db) :
    (autofillOpponent opponent db).matchups = db.matchups := by
  unfold autofillOpponent
  dsimp only []
  split
  · rfl
  · exact foldl_assignSlot_matchups _ _ _

theorem updateLineupSlotAction_lineups (user slotId : String) (aid : Option String)
    (db : Db) : (updateLineupSlotAction user slotId aid db).2.lineups = db.lineups := by
  unfold updateLineupSlotAction
  repeat' split
  all_goals rfl

theorem setMatchupFinal_lineups (matchupId : String) (db : Db) :
    (setMatchupFinal matchupId db).lineups = db.lineups := rfl

theorem withResults_lineups (x : Db) (v : List MatchupResult) :
    ({ x with matchupResults := v } : Db).lineups = x.lineups := rfl

theorem ensureWeekStats_lineups (config : RuleSetConfig) (leagueId : String) (week : Nat)
    (athleteIds : List String) (db : Db) :
    (ensureWeekStats config leagueId week athleteIds db).lineups = db.lineups := rfl

/-- C7: the lineup lock is one-way.  Locking a lineup that still has an
unfilled slot fails with `incomplete`; locking a fully filled open lineup
succeeds and stamps `lockedAt`; any slot mutation on a locked lineup fails
with `locked` and leaves the state unchanged; and none of the three
state-changing actions ever turns a locked lineup back into an open one. -/
theorem lineupLock_one_way (user : String) (db : Db) :
    (∀ (lineupId : String) (now : Nat) (lineup : Lineup) (team : Team),
      db.lineups.find? (fun l => l.id == lineupId) = some lineup →
      db.teams.find? (fun t => t.id == lineup.teamId) = some team →
      team.ownerId = user →
      ((lineup.lockedAt = none →
        0 < ((db.lineupSlots.filter (fun s => s.lineupId == lineupId)).filter
            (fun s => s.athleteId.isNone)).length →
        lockLineupAction user lineupId now db = (.error .incomplete, db)) ∧
      (lineup.lockedAt = none →
        ((db.lineupSlots.filter (fun s => s.lineupId == lineupId)).filter
            (fun s => s.athleteId.isNone)).length = 0 →
        lockLineupAction user lineupId now db =
          (.ok (some now), setLineupLocked lineupId now db)) ∧
      (∀ (slotId : String) (slot : LineupSlot) (aid : Option String),
        db.lineupSlots.find? (fun s => s.id == slotId) = some slot →
        slot.lineupId = lineupId →
        lineup.lockedAt.isSome →
        updateLineupSlotAction user slotId aid db = (.error .locked, db)))) ∧
    (∀ (slotId : String) (aid : Option String) (l : Lineup), l ∈ db.lineups →
      l.lockedAt.isSome →
      ∃ l' ∈ (updateLineupSlotAction user slotId aid db).2.lineups,
        l'.id = l.id ∧ l'.lockedAt.isSome) ∧
    (∀ (lineupId : String) (now : Nat) (l : Lineup), l ∈ db.lineups →
      l.lockedAt.isSome →
      ∃ l' ∈ (lockLineupAction user lineupId now db).2.lineups,
        l'.id = l.id ∧ l'.lockedAt.isSome) ∧
    (∀ (leagueId teamId : String) (l : Lineup), l ∈ db.lineups →
      l.lockedAt.isSome →
      ∃ l' ∈ (simulateMatchupAction user leagueId teamId db).2.lineups,
        l'.id = l.id ∧ l'.lockedAt.isSome) := by
  refine ⟨fun lineupId now lineup team hL hT hO => ⟨?_, ?_, ?_⟩, ?_, ?_, ?_⟩
  · intro hnone hcount
    unfold lockLineupAction
    simp [hL, hT, hO, hnone]
    obtain ⟨x, hx⟩ := List.exists_mem_of_length_pos hcount
    rcases List.mem_filter.1 hx with ⟨hx1, hx2⟩
    rcases List.mem_filter.1 hx1 with ⟨hx3, hx4⟩
    exact ⟨x, hx3, by simpa using hx2, by simpa using hx4⟩
  · intro hnone hcount
    unfold lockLineupAction
    simp [hL, hT, hO, hnone]
    intro a ha hnoneA
    have h0 := List.filter_eq_nil_iff.1 (List.length_eq_zero.1 hcount)
    intro hlid
    exact h0 a (List.mem_filter.2 ⟨ha, by simpa using hlid⟩) (by simpa using hnoneA)
  · intro slotId slot aid hS hSL hlocked
    unfold updateLineupSlotAction
    simp [hS, hSL, hL, hT, hO, hlocked]
  · intro slotId aid l hmem hsome
    exact ⟨l, by rw [updateLineupSlotAction_lineups]; exact hmem, rfl, hsome⟩
  · intro lineupId now l hmem hsome
    unfold lockLineupAction
    dsimp only []
    repeat' split
    all_goals try exact ⟨l, hmem, rfl, hsome⟩
    unfold setLineupLocked
    dsimp only []
    refine ⟨_, List.mem_map_of_mem _ hmem, ?_, ?_⟩
    · split <;> rfl
    · split
      · simp
      · exact hsome
  · intro leagueId teamId l hmem hsome
    unfold simulateMatchupAction
    dsimp only []
    repeat' split
    all_goals try exact ⟨l, hmem, rfl, hsome⟩
    all_goals try
      (refine ⟨l, ?_, rfl, hsome⟩
       exact ensureLineup_lineups_mem _ _ _ _ _ (ensureLineup_lineups_mem _ _ _ _ _ hmem))
    all_goals
      refine ⟨l, ?_, rfl, hsome⟩
      simp only [setMatchupFinal_lineups, withResults_lineups, ensureWeekStats_lineups,
        autofillOpponent_lineups]
      exact ensureLineup_lineups_mem _ _ _ _ _ (ensureLineup_lineups_mem _ _ _ _ _ hmem)

/-- Demo state for the lock theorems: one team, a complete open lineup
(`lu1`), a locked lineup (`lu2`) and an open lineup with an empty slot
(`lu3`). -/
def lockDemoDb : Db :=
  { leagues := []
    teams := [⟨"t1", "lg", "u1"⟩]
    athletes := []
    lineups := [⟨"lu1", "t1", 1, none⟩, ⟨"lu2", "t1", 2, some 5⟩, ⟨"lu3", "t1", 3, none⟩]
    lineupSlots := [⟨"s1", "lu1", "A", 0, some "a1"⟩, ⟨"s2", "lu2", "A", 0, some "a1"⟩,
      ⟨"s3", "lu3", "A", 0, none⟩]
    matchups := []
    matchupResults := []
    athleteWeekStats := []
    nextId := 0 }

theorem lineupLock_one_way_witness :
    lockLineupAction "u1" "lu3" 7 lockDemoDb = (.error .incomplete, lockDemoDb) ∧
    lockLineupAction "u1" "lu1" 7 lockDemoDb =
      (.ok (some 7), setLineupLocked "lu1" 7 lockDemoDb) ∧
    updateLineupSlotAction "u1" "s2" none lockDemoDb = (.error .locked, lockDemoDb) ∧
    (∃ l' ∈ (updateLineupSlotAction "u1" "s1" none lockDemoDb).2.lineups,
      l'.id = "lu2" ∧ l'.lockedAt.isSome) ∧
    (∃ l' ∈ (lockLineupAction "u1" "lu1" 7 lockDemoDb).2.lineups,
      l'.id = "lu2" ∧ l'.lockedAt.isSome) ∧
    (∃ l' ∈ (simulateMatchupAction "u1" "lg" "t1" lockDemoDb).2.lineups,
      l'.id = "lu2" ∧ l'.lockedAt.isSome) := by
  obtain ⟨hA, hB1, hB2, hB3⟩ := lineupLock_one_way "u1" lockDemoDb
  refine ⟨?_, ?_, ?_, ?_, ?_, ?_⟩
  · exact (hA "lu3" 7 ⟨"lu3", "t1", 3, none⟩ ⟨"t1", "lg", "u1"⟩ rfl rfl rfl).1 rfl (by decide)
  · exact (hA "lu1" 7 ⟨"lu1", "t1", 1, none⟩ ⟨"t1", "lg", "u1"⟩ rfl rfl rfl).2.1 rfl rfl
  · exact (hA "lu2" 7 ⟨"lu2", "t1", 2, some 5⟩ ⟨"t1", "lg", "u1"⟩ rfl rfl rfl).2.2
      "s2" ⟨"s2", "lu2", "A", 0, some "a1"⟩ none rfl rfl rfl
  · exact hB1 "s1" none ⟨"lu2", "t1", 2, some 5⟩ (by decide) rfl
  · exact hB2 "lu1" 7 ⟨"lu2", "t1", 2, some 5⟩ (by decide) rfl
  · exact hB3 "lg" "t1" ⟨"lu2", "t1", 2, some 5⟩ (by decide) rfl

theorem setMatchupFinal_matchupResults (matchupId : String) (db : Db) :
    (setMatchupFinal matchupId db).matchupResults = db.matchupResults := rfl

theorem ensureWeekStats_matchupResults (config : RuleSetConfig) (leagueId : String)
    (week : Nat) (athleteIds : List String) (db : Db) :
    (ensureWeekStats config leagueId week athleteIds db).matchupResults =
      db.matchupResults := rfl

theorem withResults_matchupResults (x : Db) (v : List MatchupResult) :
    ({ x with matchupResults := v } : Db).matchupResults = v := rfl

/-- At most one `MatchupResult` row per matchup (the uniqueness invariant
of the `MatchupResult.matchupId` key). -/
def resultsAtMostOne (db : Db) : Prop :=
  ∀ mid : String, db.matchupResults.countP (fun r => r.matchupId == mid) ≤ 1

theorem simulateMatchupAction_results_shape (user leagueId teamId : String) (db : Db) :
    (simulateMatchupAction user leagueId teamId db).2.matchupResults = db.matchupResults ∨
    ∃ mid hs as, db.matchupResults.find? (fun r => r.matchupId == mid) = none ∧
      (simulateMatchupAction user leagueId teamId db).2.matchupResults =
        db.matchupResults ++ [⟨mid, hs, as⟩] := by
  unfold simulateMatchupAction
  dsimp only []
  repeat' split
  all_goals try (left; rfl)
  all_goals dsimp only []
  all_goals try (left; simp only [ensureLineup_matchupResults]; done)
  all_goals
    right
    rename_i matchup hfound xr hnone hcond hfill
    simp only [setMatchupFinal_matchupResults, withResults_matchupResults,
      ensureWeekStats_matchupResults, autofillOpponent_matchupResults,
      ensureLineup_matchupResults]
    exact ⟨matchup.id, _, _, hnone, rfl⟩

/-- C6: matchup simulation is idempotent at the matchup level.  When a
`MatchupResult` already exists for the matchup the action resolves, it
returns that result's scores (flagged `alreadyFinal`) and leaves the whole
persisted state untouched; and one action step preserves the at-most-one-
result-per-matchup invariant. -/
theorem simulateMatchup_idempotent (user leagueId teamId : String) (db : Db) :
    (∀ (team : Team) (league : League) (config : RuleSetConfig) (m : Matchup)
        (r : MatchupResult),
      db.teams.find? (fun t => t.id == teamId) = some team →
      team.ownerId = user →
      db.leagues.find? (fun l => l.id == leagueId) = some league →
      league.id = team.leagueId →
      parseRuleSetConfig league.config = .ok config →
      db.matchups.find? (fun mm => mm.leagueId == leagueId &&
        mm.week == league.currentWeek &&
        (mm.homeTeamId == teamId || mm.awayTeamId == teamId)) = some m →
      db.matchupResults.find? (fun r2 => r2.matchupId == m.id) = some r →
      simulateMatchupAction user leagueId teamId db =
        (.ok m.id r.homeScore r.awayScore true, db)) ∧
    (resultsAtMostOne db →
      resultsAtMostOne (simulateMatchupAction user leagueId teamId db).2) := by
  constructor
  · intro team league config m r hteam hown hleague hid hcfg hm hr
    unfold simulateMatchupAction
    simp [hteam, hown, hleague, hid, hcfg, hm, hr]
  · intro hmax
    rcases simulateMatchupAction_results_shape user leagueId teamId db with h | ⟨mid, hs, as, hnone, heq⟩
    · intro mid'
      rw [h]
      exact hmax mid'
    · intro mid'
      rw [heq, List.countP_append]
      have h0 : db.matchupResults.countP (fun r2 => r2.matchupId == mid) = 0 :=
        List.countP_eq_zero.2 (List.find?_eq_none.1 hnone)
      by_cases hmm : mid = mid'
      · subst hmm
        rw [h0]
        simp
      · have h1 := hmax mid'
        have h2 : ([(⟨mid, hs, as⟩ : MatchupResult)].countP
            (fun r2 => r2.matchupId == mid')) = 0 := by
          simp [hmm]
        omega

/-- Demo state for the idempotence witness: a two-team league whose only
matchup is already `FINAL` with a stored `3 : 2` result. -/
def finalDemoDb : Db :=
  { leagues := [⟨"lg", rawDefaultsConfig, 1, "u1"⟩]
    teams := [⟨"t1", "lg", "u1"⟩, ⟨"t2", "lg", "u2"⟩]
    athletes := []
    lineups := []
    lineupSlots := []
    matchups := [⟨"m1", "lg", 1, "t1", "t2", "FINAL"⟩]
    matchupResults := [⟨"m1", 3, 2⟩]
    athleteWeekStats := []
    nextId := 0 }

theorem simulateMatchup_idempotent_witness :
    simulateMatchupAction "u1" "lg" "t1" finalDemoDb = (.ok "m1" 3 2 true, finalDemoDb) ∧
    resultsAtMostOne (simulateMatchupAction "u1" "lg" "t1" finalDemoDb).2 := by
  obtain ⟨ha, hb⟩ := simulateMatchup_idempotent "u1" "lg" "t1" finalDemoDb
  constructor
  · exact ha ⟨"t1", "lg", "u1"⟩ ⟨"lg", rawDefaultsConfig, 1, "u1"⟩ defaultsConfigParsed
      ⟨"m1", "lg", 1, "t1", "t2", "FINAL"⟩ ⟨"m1", 3, 2⟩ rfl rfl rfl rfl rfl rfl rfl
  · apply hb
    intro mid
    simpa using List.countP_le_length (l := finalDemoDb.matchupResults)
      (p := fun r => r.matchupId == mid)

/-- C9: once any `MatchupResult` exists for a league, schedule
regeneration is rejected — `generateScheduleAction` deletes nothing,
creates nothing, and leaves the persisted state exactly as it was.  The
first hypothesis is the reachable-state invariant that every stored result
belongs to a `FINAL` matchup, which is exactly what the result-creating
transaction of `simulateMatchupAction` establishes. -/
theorem generateSchedule_frozen (user leagueId : String) (db : Db)
    (hinv : ∀ r ∈ db.matchupResults, ∀ m ∈ db.matchups, m.id = r.matchupId →
      m.status = "FINAL")
    (hex : ∃ r ∈ db.matchupResults, ∃ m ∈ db.matchups,
      m.id = r.matchupId ∧ m.leagueId = leagueId) :
    (generateScheduleAction user leagueId db).2 = db := by
  unfold generateScheduleAction
  dsimp only []
  repeat' split
  all_goals try rfl
  rename_i hteams hfinal
  exfalso
  apply hfinal
  obtain ⟨r, hr, m, hm, hid, hleague⟩ := hex
  have hfin := hinv r hr m hm hid
  refine List.countP_pos.2 ⟨m, hm, ?_⟩
  simp [hleague, hfin]

/-- Demo state for the frozen-schedule witness: a league whose single
matchup is `FINAL` and has a stored result. -/
def frozenDemoDb : Db :=
  { leagues := [⟨"lg", rawDefaultsConfig, 1, "u1"⟩]
    teams := [⟨"t1", "lg", "u1"⟩, ⟨"t2", "lg", "u2"⟩]
    athletes := []
    lineups := []
    lineupSlots := []
    matchups := [⟨"m1", "lg", 1, "t1", "t2", "FINAL"⟩]
    matchupResults := [⟨"m1", 5, 1⟩]
    athleteWeekStats := []
    nextId := 0 }

theorem generateSchedule_frozen_witness :
    (generateScheduleAction "u1" "lg" frozenDemoDb).2 = frozenDemoDb :=
  generateSchedule_frozen "u1" "lg" frozenDemoDb (by decide)
    ⟨⟨"m1", 5, 1⟩, by decide, ⟨"m1", "lg", 1, "t1", "t2", "FINAL"⟩, by decide, rfl, rfl⟩

theorem countP_eq_one_of_unique {p : α → Bool} {l : List α} (hl : l.Nodup) (a : α)
    (ha : a ∈ l) (hpa : p a = true) (huniq : ∀ b ∈ l, p b = true → b = a) :
    l.countP p = 1 := by
  rw [List.countP_eq_length_filter]
  have hnd : (l.filter p).Nodup := hl.filter p
  have hsub : l.filter p ⊆ [a] := by
    intro b hb
    rcases List.mem_filter.1 hb with ⟨hbl, hpb⟩
    simp [huniq b hbl hpb]
  have hle : (l.filter p).length ≤ 1 := by
    simpa using (hnd.subperm hsub).length_le
  have hge : 1 ≤ (l.filter p).length := by
    have : a ∈ l.filter p := List.mem_filter.2 ⟨ha, hpa⟩
    exact List.length_pos.2 (List.ne_nil_of_mem this)
  omega

theorem countP_flatMap (p : β → Bool) :
    ∀ (l : List α) (f : α → List β),
      ((l.flatMap f).countP p) = (l.map fun a => (f a).countP p).sum
  | [], _ => rfl
  | a :: rest, f => by
    simp only [List.flatMap_cons, List.countP_append, List.map_cons, List.sum_cons]
    rw [countP_flatMap p rest f]

theorem filterMap_eq_map_of (g : α → Option β) (f : α → β) :
    ∀ (l : List α), (∀ a ∈ l, g a = some (f a)) → l.filterMap g = l.map f
  | [], _ => rfl
  | a :: rest, h => by
    rw [List.filterMap_cons, h a (List.mem_cons_self _ _),
      filterMap_eq_map_of g f rest fun b hb => h b (List.mem_cons_of_mem _ hb), List.map_cons]

theorem countP_filterMap_match (p : β → Bool) (g : α → Option β) :
    ∀ (l : List α), (l.filterMap g).countP p =
      l.countP fun a =>
        match g a with
        | some b => p b
        | none => false
  | [] => rfl
  | a :: rest => by
    rw [List.filterMap_cons]
    cases hg : g a with
    | none =>
      rw [countP_filterMap_match p g rest, List.countP_cons]
      simp [hg]
    | some b =>
      rw [List.countP_cons, countP_filterMap_match p g rest, List.countP_cons]
      simp [hg]

theorem length_filterMap_eq_countP (g : α → Option β) :
    ∀ (l : List α), (l.filterMap g).length = l.countP fun a => (g a).isSome
  | [] => rfl
  | a :: rest => by
    rw [List.filterMap_cons]
    cases hg : g a with
    | none =>
      rw [length_filterMap_eq_countP g rest, List.countP_cons]
      simp [hg]
    | some b =>
      rw [List.length_cons, length_filterMap_eq_countP g rest, List.countP_cons]
      simp [hg]

theorem sum_map_ite_count (p : α → Prop) [DecidablePred p] (c : Nat) :
    ∀ l : List α,
      (l.map fun a => if p a then c else 0).sum = c * l.countP fun a => p a
  | [] => by simp
  | a :: rest => by
    simp only [List.map_cons, List.sum_cons, List.countP_cons]
    rw [sum_map_ite_count p c rest]
    by_cases hp : p a <;> simp [hp] <;> ring

theorem sum_range_single (w c : Nat) :
    ∀ w' : Nat, ((List.range w').map fun t => if t + 1 = w then c else 0).sum =
      if 1 ≤ w ∧ w ≤ w' then c else 0
  | 0 => by
    simp only [List.range_zero, List.map_nil, List.sum_nil]
    split
    · omega
    · rfl
  | w' + 1 => by
    rw [List.range_succ, List.map_append, List.sum_append, sum_range_single w c w']
    simp only [List.map_cons, List.map_nil, List.sum_cons, List.sum_nil, Nat.add_zero]
    repeat' split
    all_goals omega

theorem mod_add_mod_shift (m a b : Nat) : (a % m + b) % m = (a + b) % m := by
  conv_rhs => rw [Nat.add_mod]
  rw [Nat.add_mod (a % m) b, Nat.mod_mod_of_dvd a dvd_rfl]

theorem mod_cancel_of_lt {m t t' : Nat} (ht : t < m) (ht' : t' < m) (a : Nat)
    (h : (a + t) % m = (a + t') % m) : t = t' := by
  have h1 : a + t ≡ a + t' [MOD m] := h
  have h2 : t ≡ t' [MOD m] := Nat.ModEq.add_left_cancel' a h1
  calc t = t % m := (Nat.mod_eq_of_lt ht).symm
    _ = t' % m := h2
    _ = t' := Nat.mod_eq_of_lt ht'

theorem countSolutions_mod_eq (m v : Nat) (h1 : 1 ≤ m) (hv : v < m) :
    (List.range m).countP (fun t => (v + t) % m = m - 1) = 1 := by
  apply countP_eq_one_of_unique (List.nodup_range m) (m - 1 - v)
  · exact List.mem_range.2 (by omega)
  · have : v + (m - 1 - v) = m - 1 := by omega
    simp [this, Nat.mod_eq_of_lt (show m - 1 < m by omega)]
  · intro b hb hpb
    have hb' : b < m := List.mem_range.1 hb
    have heq : (v + b) % m = (v + (m - 1 - v)) % m := by
      have h2 : v + (m - 1 - v) = m - 1 := by omega
      rw [h2, Nat.mod_eq_of_lt (show m - 1 < m by omega)]
      simpa using hpb
    exact mod_cancel_of_lt hb' (by omega) v heq

theorem countSolutions_double_mod (m c : Nat) (hm : m % 2 = 1) (h1 : 1 ≤ m) :
    (List.range m).countP (fun t => (c + 2 * t) % m = 0) = 1 := by
  have hhalf : 2 * ((m + 1) / 2) = m + 1 := by omega
  set t0 := ((m + 1) / 2 * ((m - c % m) % m)) % m with ht0
  have ht0m : t0 < m := Nat.mod_lt _ (by omega)
  have hsol : (c + 2 * t0) % m = 0 := by
    have e1 : t0 ≡ (m + 1) / 2 * ((m - c % m) % m) [MOD m] := Nat.mod_modEq _ m
    have e2 : 2 * t0 ≡ 2 * ((m + 1) / 2 * ((m - c % m) % m)) [MOD m] := e1.mul_left 2
    have e3 : 2 * ((m + 1) / 2 * ((m - c % m) % m)) = (m + 1) * ((m - c % m) % m) := by
      rw [← Nat.mul_assoc, hhalf]
    have e4 : (m + 1) * ((m - c % m) % m) ≡ 1 * ((m - c % m) % m) [MOD m] := by
      refine Nat.ModEq.mul_right _ ?_
      exact Nat.add_mod_left m 1
    have e5 : 2 * t0 ≡ (m - c % m) % m [MOD m] := by
      calc 2 * t0 ≡ (m + 1) * ((m - c % m) % m) [MOD m] := e3 ▸ e2
        _ ≡ 1 * ((m - c % m) % m) [MOD m] := e4
        _ = (m - c % m) % m := Nat.one_mul _
    have e6 : c + 2 * t0 ≡ c % m + (m - c % m) % m [MOD m] :=
      Nat.ModEq.add (Nat.mod_modEq c m).symm e5
    have e7 : (c % m + (m - c % m) % m) % m = 0 := by
      have hcm : c % m < m := Nat.mod_lt _ (by omega)
      by_cases hc0 : c % m = 0
      · simp [hc0]
      · have hlt : m - c % m < m := by omega
        rw [Nat.mod_eq_of_lt hlt]
        have : c % m + (m - c % m) = m := by omega
        simp [this]
    calc (c + 2 * t0) % m = (c % m + (m - c % m) % m) % m := e6
      _ = 0 := e7
  apply countP_eq_one_of_unique (List.nodup_range m) t0 (List.mem_range.2 ht0m)
    (by simpa using hsol)
  intro b hb hpb
  have hb' : b < m := List.mem_range.1 hb
  have hcop : Nat.gcd m 2 = 1 := (Nat.coprime_two_left.2 (Nat.odd_iff.2 hm)).symm
  have heq : (c + 2 * b) % m = (c + 2 * t0) % m := by
    rw [hsol]
    simpa using hpb
  have h2 : c + 2 * b ≡ c + 2 * t0 [MOD m] := heq
  have h3 : 2 * b ≡ 2 * t0 [MOD m] := Nat.ModEq.add_left_cancel' c h2
  have h4 : b ≡ t0 [MOD m] := Nat.ModEq.cancel_left_of_coprime hcop h3
  calc b = b % m := (Nat.mod_eq_of_lt hb').symm
    _ = t0 % m := h4
    _ = t0 := Nat.mod_eq_of_lt ht0m

theorem pairRound_cond_iff (m u v t : Nat) (hm : m % 2 = 1) (hu : u < m) (hv : v < m)
    (huv : u ≠ v) :
    ((u + t) % m + (v + t) % m = m - 2) ↔ ((u + v + 2 + 2 * t) % m = 0) := by
  have h3 : 3 ≤ m := by omega
  have hA : (u + t) % m < m := Nat.mod_lt _ (by omega)
  have hB : (v + t) % m < m := Nat.mod_lt _ (by omega)
  have hAB : (u + t) % m ≠ (v + t) % m := by
    intro h
    have : u + t ≡ v + t [MOD m] := ?_
    · have h2 : u ≡ v [MOD m] := Nat.ModEq.add_right_cancel' t this
      exact huv (by
        calc u = u % m := (Nat.mod_eq_of_lt hu).symm
          _ = v % m := h2
          _ = v := Nat.mod_eq_of_lt hv)
    · exact h
  have hmod : (u + v + 2 + 2 * t) % m = ((u + t) % m + (v + t) % m + 2) % m := by
    have e1 : u + v + 2 + 2 * t = u + t + (v + t) + 2 := by ring
    rw [e1]
    exact Nat.ModEq.add_right 2
      (Nat.ModEq.add (Nat.mod_modEq (u + t) m).symm (Nat.mod_modEq (v + t) m).symm)
  constructor
  · intro h
    rw [hmod, h]
    have h4 : m - 2 + 2 = m := by omega
    simp [h4]
  · intro h
    rw [hmod] at h
    obtain ⟨q, hq⟩ := Nat.dvd_iff_mod_eq_zero.mpr h
    have hub : (u + t) % m + (v + t) % m + 2 ≤ 2 * m := by omega
    have hq2 : q = 1 ∨ q = 2 := by
      have hq0 : q ≠ 0 := by
        rintro rfl
        omega
      have hq3 : q < 3 := by
        by_contra hge
        push_neg at hge
        have h5 : 3 * m ≤ (u + t) % m + (v + t) % m + 2 := by
          rw [hq]
          calc 3 * m = m * 3 := by ring
            _ ≤ m * q := Nat.mul_le_mul_left m hge
        omega
      omega
    rcases hq2 with rfl | rfl
    · omega
    · exfalso
      have hAm : (u + t) % m = m - 1 := by omega
      have hBm : (v + t) % m = m - 1 := by omega
      exact hAB (hAm.trans hBm.symm)

theorem countSolutions_pair (m u v : Nat) (hm : m % 2 = 1) (hu : u < m) (hv : v < m)
    (huv : u ≠ v) :
    (List.range m).countP (fun t => (u + t) % m + (v + t) % m = m - 2) = 1 := by
  have h := countSolutions_double_mod m (u + v + 2) hm (by omega)
  rw [← h]
  apply List.countP_congr
  intro t _
  have := pairRound_cond_iff m u v t hm hu hv huv
  constructor
  · intro ht
    simpa using this.1 (by simpa using ht)
  · intro ht
    simpa using this.2 (by simpa using ht)

/-- Tail part of the rotation step: `rest.unshift(rest.pop()!)`, the last
element moved to the front. -/
def rotRight (t : List String) : List String :=
  t.getLast?.toList ++ t.dropLast

theorem rotateStep_cons (x : String) (rest : List String) :
    rotateStep (x :: rest) = x :: rotRight rest := rfl

theorem rotRight_length : ∀ t : List String, (rotRight t).length = t.length
  | [] => rfl
  | b :: t' => by
    simp [rotRight, List.getLast?_eq_getLast (b :: t') (by simp)]

theorem rotRight_perm : ∀ t : List String, (rotRight t).Perm t
  | [] => .rfl
  | b :: t' => by
    have h : (b :: t') ≠ [] := by simp
    have e : rotRight (b :: t') = (b :: t').getLast h :: (b :: t').dropLast := by
      simp [rotRight, List.getLast?_eq_getLast _ h]
    rw [e]
    have e2 : (b :: t').dropLast ++ [(b :: t').getLast h] = b :: t' :=
      List.dropLast_append_getLast h
    have hp : ([(b :: t').getLast h] ++ (b :: t').dropLast).Perm
        ((b :: t').dropLast ++ [(b :: t').getLast h]) := List.perm_append_comm
    rw [e2] at hp
    simpa using hp

theorem rotRight_get? (t : List String) (j : Nat) (hj : j < t.length) :
    (rotRight t).get? j = t.get? ((j + t.length - 1) % t.length) := by
  cases t with
  | nil => simp at hj
  | cons b t' =>
    have h : (b :: t') ≠ [] := by simp
    have e : rotRight (b :: t') = (b :: t').getLast h :: (b :: t').dropLast := by
      simp [rotRight, List.getLast?_eq_getLast _ h]
    rw [e]
    have hlen : 1 ≤ (b :: t').length := by simp
    match j with
    | 0 =>
      have h1 : (0 + (b :: t').length - 1) % (b :: t').length = (b :: t').length - 1 := by
        have e0 : 0 + (b :: t').length - 1 = (b :: t').length - 1 := by omega
        rw [e0]
        exact Nat.mod_eq_of_lt (by omega)
      rw [h1, List.get?_cons_zero,
        List.get?_eq_get (show (b :: t').length - 1 < (b :: t').length by omega),
        List.getLast_eq_get]
    | j' + 1 =>
      have hj' : j' + 1 < (b :: t').length := hj
      have h1 : (j' + 1 + (b :: t').length - 1) % (b :: t').length = j' := by
        have e2 : j' + 1 + (b :: t').length - 1 = j' + (b :: t').length := by omega
        rw [e2, Nat.add_mod_right]
        exact Nat.mod_eq_of_lt (by omega)
      rw [h1, List.get?_cons_succ]
      have hjd : j' < (b :: t').dropLast.length := by
        simp only [List.length_dropLast]
        omega
      rw [List.get?_eq_get hjd, List.get?_eq_get (show j' < (b :: t').length by omega)]
      congr 1
      exact List.get_dropLast _ ⟨j', hjd⟩

theorem rotRight_iter_get? (r : Nat) :
    ∀ (t : List String) (j : Nat), j < t.length →
      (rotRight^[r] t).get? j = t.get? ((j + (t.length - 1) * r) % t.length) := by
  induction r with
  | zero =>
    intro t j hj
    simp [Nat.mod_eq_of_lt hj]
  | succ r ih =>
    intro t j hj
    have hlen : (rotRight t).length = t.length := rotRight_length t
    rw [Function.iterate_succ_apply, ih (rotRight t) j (by omega)]
    rw [hlen]
    have hm : 1 ≤ t.length := by omega
    have hidx : (j + (t.length - 1) * r) % t.length < t.length := Nat.mod_lt _ (by omega)
    rw [rotRight_get? t _ hidx]
    congr 1
    have e1 : (j + (t.length - 1) * r) % t.length + t.length - 1 =
        (j + (t.length - 1) * r) % t.length + (t.length - 1) := by omega
    rw [e1, mod_add_mod_shift]
    congr 1
    ring

theorem rotateStep_iter_cons (x : String) :
    ∀ (r : Nat) (t : List String), rotateStep^[r] (x :: t) = x :: rotRight^[r] t
  | 0, _ => rfl
  | r + 1, t => by
    rw [Function.iterate_succ_apply, rotateStep_cons, rotateStep_iter_cons x r (rotRight t),
      Function.iterate_succ_apply]

theorem rotateStep_perm : ∀ l : List String, (rotateStep l).Perm l
  | [] => .rfl
  | x :: rest => by
    rw [rotateStep_cons]
    exact (rotRight_perm rest).cons x

theorem rotateStep_iter_perm (l : List String) : ∀ r : Nat, (rotateStep^[r] l).Perm l
  | 0 => .rfl
  | r + 1 => by
    rw [Function.iterate_succ_apply]
    exact (rotateStep_iter_perm (rotateStep l) r).trans (rotateStep_perm l)

theorem getD_inj (rot : List String) (hnd : rot.Nodup) {i j : Nat} (hi : i < rot.length)
    (hj : j < rot.length) (h : rot.getD i "" = rot.getD j "") : i = j := by
  rw [List.getD_eq_get _ _ hi, List.getD_eq_get _ _ hj] at h
  have h2 := (List.Nodup.get_inj_iff hnd).1 h
  exact congrArg Fin.val h2

theorem scheduleRounds_eq_flatMap :
    ∀ (fuel : Nat) (rot : List String) (round : Nat),
      scheduleRounds rot round fuel =
        (List.range fuel).flatMap fun t => roundFixtures (rotateStep^[t] rot) (round + t)
  | 0, _, _ => rfl
  | fuel + 1, rot, round => by
    rw [show scheduleRounds rot round (fuel + 1) =
      roundFixtures rot round ++ scheduleRounds (rotateStep rot) (round + 1) fuel from rfl]
    rw [scheduleRounds_eq_flatMap fuel (rotateStep rot) (round + 1)]
    rw [List.range_succ_eq_map, List.flatMap_cons, List.flatMap_map]
    rw [show (fun t => roundFixtures (rotateStep^[t + 1] rot) (round + (t + 1))) =
      fun t => roundFixtures (rotateStep^[t] (rotateStep rot)) (round + 1 + t) from ?_]
    · simp
    · funext t
      rw [Function.iterate_succ_apply]
      congr 1
      omega

theorem roundFixtures_week (rot : List String) (r : Nat) :
    ∀ f ∈ roundFixtures rot r, f.week = r + 1 := by
  intro f hf
  unfold roundFixtures at hf
  rcases List.mem_filterMap.1 hf with ⟨i, _, hi⟩
  dsimp only [] at hi
  split at hi
  · cases hi
  · split at hi <;> (cases hi; rfl)

theorem roundFixtures_eq_map (rot : List String) (r : Nat) (hbye : byeId ∉ rot) :
    roundFixtures rot r = (List.range (rot.length / 2)).map fun i =>
      if r % 2 = 0 then
        ⟨r + 1, rot.getD i "", rot.getD (rot.length - 1 - i) ""⟩
      else
        ⟨r + 1, rot.getD (rot.length - 1 - i) "", rot.getD i ""⟩ := by
  unfold roundFixtures
  apply filterMap_eq_map_of
  intro i hi
  have hi' : i < rot.length / 2 := List.mem_range.1 hi
  have hin : i < rot.length := by omega
  have hin2 : rot.length - 1 - i < rot.length := by omega
  have hb1 : rot.getD i "" ≠ byeId := by
    intro he
    rw [List.getD_eq_get _ _ hin] at he
    exact hbye (he ▸ List.get_mem rot _ _)
  have hb2 : rot.getD (rot.length - 1 - i) "" ≠ byeId := by
    intro he
    rw [List.getD_eq_get _ _ hin2] at he
    exact hbye (he ▸ List.get_mem rot _ _)
  dsimp only []
  rw [if_neg (by tauto)]
  split <;> rfl

theorem roundFixtures_countP_team (rot : List String) (r : Nat) (hnd : rot.Nodup)
    (hbye : byeId ∉ rot) (h2 : 2 ≤ rot.length) (heven : rot.length % 2 = 0)
    (x : String) (k : Nat) (hk : k < rot.length) (hxk : rot.getD k "" = x) :
    (roundFixtures rot r).countP
      (fun f => f.homeTeamId = x ∨ f.awayTeamId = x) = 1 := by
  set n := rot.length with hn
  rw [roundFixtures_eq_map rot r hbye, List.countP_map]
  rw [List.countP_congr (q := fun i =>
    decide (rot.getD i "" = x ∨ rot.getD (n - 1 - i) "" = x)) ?_]
  · set a := if k < n / 2 then k else n - 1 - k with ha
    apply countP_eq_one_of_unique (List.nodup_range _) a
    · refine List.mem_range.2 ?_
      rw [ha]
      split <;> omega
    · rw [ha]
      split
      · exact decide_eq_true (Or.inl hxk)
      · have e : n - 1 - (n - 1 - k) = k := by omega
        rw [e]
        exact decide_eq_true (Or.inr hxk)
    · intro b hb hpb
      have hb' : b < n / 2 := List.mem_range.1 hb
      rcases (by simpa using hpb :
          rot.getD b "" = x ∨ rot.getD (n - 1 - b) "" = x) with h1 | h1
      · have hbk : b = k := getD_inj rot hnd (by omega) hk (h1.trans hxk.symm)
        rw [ha]
        split <;> omega
      · have hbk : n - 1 - b = k := getD_inj rot hnd (by omega) hk (h1.trans hxk.symm)
        rw [ha]
        split <;> omega
  · intro i hi
    dsimp only [Function.comp]
    by_cases hr : r % 2 = 0
    · rw [if_pos hr]
    · rw [if_neg hr]
      dsimp only []
      simp only [decide_eq_true_eq]
      exact Or.comm

theorem roundFixtures_countP_pair (rot : List String) (r : Nat) (hnd : rot.Nodup)
    (hbye : byeId ∉ rot) (h2 : 2 ≤ rot.length) (heven : rot.length % 2 = 0)
    (x y : String) (k l : Nat) (hk : k < rot.length) (hl : l < rot.length) (hkl : k ≠ l)
    (hxk : rot.getD k "" = x) (hyl : rot.getD l "" = y) :
    (roundFixtures rot r).countP (fun f =>
      (f.homeTeamId = x ∧ f.awayTeamId = y) ∨ (f.homeTeamId = y ∧ f.awayTeamId = x)) =
      if k + l = rot.length - 1 then 1 else 0 := by
  set n := rot.length with hn
  rw [roundFixtures_eq_map rot r hbye, List.countP_map]
  rw [List.countP_congr (q := fun i => decide
    ((rot.getD i "" = x ∧ rot.getD (n - 1 - i) "" = y) ∨
      (rot.getD i "" = y ∧ rot.getD (n - 1 - i) "" = x))) ?_]
  · split
    · rename_i hsum
      set a := if k < n / 2 then k else l with ha
      apply countP_eq_one_of_unique (List.nodup_range _) a
      · refine List.mem_range.2 ?_
        rw [ha]
        split <;> omega
      · rw [ha]
        split
        · have e : n - 1 - k = l := by omega
          rw [e]
          exact decide_eq_true (Or.inl ⟨hxk, hyl⟩)
        · have e : n - 1 - l = k := by omega
          rw [e]
          exact decide_eq_true (Or.inr ⟨hyl, hxk⟩)
      · intro b hb hpb
        have hb' : b < n / 2 := List.mem_range.1 hb
        rcases (by simpa using hpb :
            (rot.getD b "" = x ∧ rot.getD (n - 1 - b) "" = y) ∨
              (rot.getD b "" = y ∧ rot.getD (n - 1 - b) "" = x)) with ⟨h1, _⟩ | ⟨h1, _⟩
        · have hbk : b = k := getD_inj rot hnd (by omega) hk (h1.trans hxk.symm)
          rw [ha]
          split <;> omega
        · have hbl : b = l := getD_inj rot hnd (by omega) hl (h1.trans hyl.symm)
          rw [ha]
          split <;> omega
    · rename_i hsum
      apply List.countP_eq_zero.2
      intro b hb hpb
      have hb' : b < n / 2 := List.mem_range.1 hb
      rcases (by simpa using hpb :
          (rot.getD b "" = x ∧ rot.getD (n - 1 - b) "" = y) ∨
            (rot.getD b "" = y ∧ rot.getD (n - 1 - b) "" = x)) with ⟨h1, h2'⟩ | ⟨h1, h2'⟩
      · have hbk : b = k := getD_inj rot hnd (by omega) hk (h1.trans hxk.symm)
        have hbl : n - 1 - b = l := getD_inj rot hnd (by omega) hl (h2'.trans hyl.symm)
        omega
      · have hbl : b = l := getD_inj rot hnd (by omega) hl (h1.trans hyl.symm)
        have hbk : n - 1 - b = k := getD_inj rot hnd (by omega) hk (h2'.trans hxk.symm)
        omega
  · intro i hi
    dsimp only [Function.comp]
    by_cases hr : r % 2 = 0
    · rw [if_pos hr]
    · rw [if_neg hr]
      dsimp only []
      simp only [decide_eq_true_eq]
      constructor
      · rintro (⟨ha1, ha2⟩ | ⟨ha1, ha2⟩)
        · exact Or.inr ⟨ha2, ha1⟩
        · exact Or.inl ⟨ha2, ha1⟩
      · rintro (⟨ha1, ha2⟩ | ⟨ha1, ha2⟩)
        · exact Or.inr ⟨ha2, ha1⟩
        · exact Or.inl ⟨ha2, ha1⟩

theorem countP_not_eq (p : α → Bool) : ∀ l : List α,
    l.countP (fun a => !(p a)) = l.length - l.countP p
  | [] => rfl
  | a :: rest => by
    have hle := List.countP_le_length p (l := rest)
    rw [List.countP_cons, List.countP_cons, List.length_cons, countP_not_eq p rest]
    by_cases hp : p a <;> simp [hp] <;> omega

theorem roundFixtures_length_bye (rot : List String) (r : Nat) (hnd : rot.Nodup)
    (h2 : 2 ≤ rot.length) (heven : rot.length % 2 = 0)
    (b : Nat) (hb : b < rot.length) (hbyeb : rot.getD b "" = byeId) :
    (roundFixtures rot r).length = rot.length / 2 - 1 := by
  set n := rot.length with hn
  unfold roundFixtures
  rw [length_filterMap_eq_countP]
  rw [List.countP_congr (q := fun i =>
    !(decide (rot.getD i "" = byeId ∨ rot.getD (n - 1 - i) "" = byeId))) ?_]
  · have hcount : (List.range (n / 2)).countP
        (fun i => decide (rot.getD i "" = byeId ∨ rot.getD (n - 1 - i) "" = byeId)) = 1 := by
      set a := if b < n / 2 then b else n - 1 - b with ha
      apply countP_eq_one_of_unique (List.nodup_range _) a
      · refine List.mem_range.2 ?_
        rw [ha]
        split <;> omega
      · rw [ha]
        split
        · exact decide_eq_true (Or.inl hbyeb)
        · have e : n - 1 - (n - 1 - b) = b := by omega
          rw [e]
          exact decide_eq_true (Or.inr hbyeb)
      · intro i hi hpi
        have hi2 : i < n / 2 := List.mem_range.1 hi
        rcases (by simpa using hpi :
            rot.getD i "" = byeId ∨ rot.getD (n - 1 - i) "" = byeId) with h1 | h1
        · have hib : i = b := getD_inj rot hnd (by omega) hb (h1.trans hbyeb.symm)
          rw [ha]
          split <;> omega
        · have hib : n - 1 - i = b := getD_inj rot hnd (by omega) hb (h1.trans hbyeb.symm)
          rw [ha]
          split <;> omega
    simp only [← hn]
    rw [countP_not_eq, List.length_range, hcount]
  · intro i _
    dsimp only []
    by_cases hd : rot.getD i "" = byeId ∨ rot.getD (n - 1 - i) "" = byeId
    · rw [if_pos hd, decide_eq_true hd]
      simp
    · rw [if_neg hd, decide_eq_false hd]
      split <;> simp

theorem roundFixtures_countP_team_bye (rot : List String) (r : Nat) (hnd : rot.Nodup)
    (h2 : 2 ≤ rot.length) (heven : rot.length % 2 = 0)
    (x : String) (k b : Nat) (hk : k < rot.length) (hb : b < rot.length) (hkb : k ≠ b)
    (hxk : rot.getD k "" = x) (hbyeb : rot.getD b "" = byeId) :
    (roundFixtures rot r).countP (fun f => f.homeTeamId = x ∨ f.awayTeamId = x) =
      if k = rot.length - 1 - b then 0 else 1 := by
  set n := rot.length with hn
  unfold roundFixtures
  rw [countP_filterMap_match]
  have hxbye : x ≠ byeId := by
    intro he
    exact hkb (getD_inj rot hnd hk hb (by rw [hxk, hbyeb, he]))
  rw [List.countP_congr (q := fun i =>
    decide (¬(rot.getD i "" = byeId ∨ rot.getD (n - 1 - i) "" = byeId) ∧
      (rot.getD i "" = x ∨ rot.getD (n - 1 - i) "" = x))) ?_]
  rotate_left
  intro i _
  dsimp only []
  by_cases hd : rot.getD i "" = byeId ∨ rot.getD (n - 1 - i) "" = byeId
  · rw [if_pos hd]
    dsimp only []
    constructor
    · intro hf
      exact absurd hf (by simp)
    · intro hq
      exact absurd hd (of_decide_eq_true hq).1
  · rw [if_neg hd]
    by_cases hr : r % 2 = 0
    · rw [if_pos hr]
      dsimp only []
      simp only [decide_eq_true_eq]
      tauto
    · rw [if_neg hr]
      dsimp only []
      simp only [decide_eq_true_eq]
      tauto
  split
  · rename_i hpart
    apply List.countP_eq_zero.2
    intro i hi hpi
    have hi' : i < n / 2 := List.mem_range.1 hi
    rcases (by simpa using hpi : ¬(rot.getD i "" = byeId ∨ rot.getD (n - 1 - i) "" = byeId) ∧
        (rot.getD i "" = x ∨ rot.getD (n - 1 - i) "" = x)) with ⟨hkept, hteam⟩
    rcases hteam with h1 | h1
    · have hik : i = k := getD_inj rot hnd (by omega) hk (h1.trans hxk.symm)
      apply hkept
      right
      have e : n - 1 - i = b := by omega
      rw [e]
      exact hbyeb
    · have hik : n - 1 - i = k := getD_inj rot hnd (by omega) hk (h1.trans hxk.symm)
      apply hkept
      left
      have e : i = b := by omega
      rw [e]
      exact hbyeb
  · rename_i hpart
    set a := if k < n / 2 then k else n - 1 - k with ha
    apply countP_eq_one_of_unique (List.nodup_range _) a
    · refine List.mem_range.2 ?_
      rw [ha]
      split <;> omega
    · rw [ha]
      refine decide_eq_true ?_
      split
      · rename_i hklt
        constructor
        · rintro (hbad | hbad)
          · exact hkb (getD_inj rot hnd hk hb (hbad.trans hbyeb.symm))
          · have e : n - 1 - k = b := getD_inj rot hnd (by omega) hb (hbad.trans hbyeb.symm)
            omega
        · exact Or.inl hxk
      · rename_i hkge
        have e : n - 1 - (n - 1 - k) = k := by omega
        constructor
        · rintro (hbad | hbad)
          · have e2 : n - 1 - k = b := getD_inj rot hnd (by omega) hb (hbad.trans hbyeb.symm)
            omega
          · rw [e] at hbad
            exact hkb (getD_inj rot hnd hk hb (hbad.trans hbyeb.symm))
        · right
          rw [e]
          exact hxk
    · intro i hi hpi
      have hi' : i < n / 2 := List.mem_range.1 hi
      rcases (by simpa using hpi : ¬(rot.getD i "" = byeId ∨ rot.getD (n - 1 - i) "" = byeId) ∧
          (rot.getD i "" = x ∨ rot.getD (n - 1 - i) "" = x)) with ⟨hkept, hteam⟩
      rcases hteam with h1 | h1
      · have hik : i = k := getD_inj rot hnd (by omega) hk (h1.trans hxk.symm)
        rw [ha]
        split <;> omega
      · have hik : n - 1 - i = k := getD_inj rot hnd (by omega) hk (h1.trans hxk.symm)
        rw [ha]
        split <;> omega

/-- Position of the element originally at index `k` after `t` rotation
steps: the fixed head stays at `0`, tail index `k - 1` moves to tail index
`(k - 1 + t) % m` (`m` the tail length). -/
def posShift (m t k : Nat) : Nat :=
  if k = 0 then 0 else (k - 1 + t) % m + 1

theorem posShift_lt (m t k : Nat) (h1 : 1 ≤ m) (hk : k < m + 1) :
    posShift m t k < m + 1 := by
  unfold posShift
  split
  · omega
  · have := Nat.mod_lt (k - 1 + t) (show 0 < m by omega)
    omega

theorem posShift_inj (m t : Nat) (h1 : 1 ≤ m) {k l : Nat} (hk : k < m + 1)
    (hl : l < m + 1) (h : posShift m t k = posShift m t l) : k = l := by
  unfold posShift at h
  split at h <;> split at h
  · omega
  · omega
  · omega
  · rename_i hk0 hl0
    have h2 : (t + (k - 1)) % m = (t + (l - 1)) % m := by
      rw [Nat.add_comm t (k - 1), Nat.add_comm t (l - 1)]
      omega
    have := mod_cancel_of_lt (show k - 1 < m by omega) (show l - 1 < m by omega) t h2
    omega

theorem rotRight_iter_length (t : Nat) :
    ∀ tail : List String, (rotRight^[t] tail).length = tail.length := by
  induction t with
  | zero => intro tail; rfl
  | succ t ih =>
    intro tail
    rw [Function.iterate_succ_apply, ih (rotRight tail), rotRight_length]

theorem rotAt_getD (x0 : String) (tail : List String) (t k : Nat)
    (hk : k < tail.length + 1) :
    (rotateStep^[t] (x0 :: tail)).getD (posShift tail.length t k) "" =
      (x0 :: tail).getD k "" := by
  rw [rotateStep_iter_cons]
  unfold posShift
  split
  · rename_i hk0
    subst hk0
    rfl
  · rename_i hk0
    set m := tail.length with hm
    have hm1 : 1 ≤ m := by omega
    have hj : (k - 1 + t) % m < m := Nat.mod_lt _ (by omega)
    rw [List.getD_cons_succ]
    have hrot : (rotRight^[t] tail).get? ((k - 1 + t) % m) =
        tail.get? (((k - 1 + t) % m + (m - 1) * t) % m) :=
      rotRight_iter_get? t tail _ hj
    have harith : ((k - 1 + t) % m + (m - 1) * t) % m = k - 1 := by
      rw [mod_add_mod_shift]
      obtain ⟨m2, hm2⟩ : ∃ m2, m = m2 + 1 := ⟨m - 1, by omega⟩
      rw [hm2]
      have e : k - 1 + t + (m2 + 1 - 1) * t = k - 1 + (m2 + 1) * t := by
        simp only [Nat.add_sub_cancel]
        ring
      rw [e, Nat.add_mul_mod_self_left]
      exact Nat.mod_eq_of_lt (by omega)
    rw [harith] at hrot
    have e2 : (x0 :: tail).getD k "" = tail.getD (k - 1) "" := by
      obtain ⟨k2, hk2⟩ : ∃ k2, k = k2 + 1 := ⟨k - 1, by omega⟩
      rw [hk2]
      simp [List.getD_cons_succ]
    rw [e2, List.getD_eq_getD_get? (rotRight^[t] tail) "" ((k - 1 + t) % m),
      List.getD_eq_getD_get? tail "" (k - 1), hrot]

theorem map_congr_mem (f g : α → β) :
    ∀ l : List α, (∀ a ∈ l, f a = g a) → l.map f = l.map g
  | [], _ => rfl
  | a :: rest, h => by
    rw [List.map_cons, List.map_cons, h a (List.mem_cons_self _ _),
      map_congr_mem f g rest fun b hb => h b (List.mem_cons_of_mem _ hb)]

theorem countP_week_and (rot : List String) (r w : Nat) (p : Fixture → Prop)
    [DecidablePred p] :
    (roundFixtures rot r).countP (fun f => f.week = w ∧ p f) =
      if r + 1 = w then (roundFixtures rot r).countP (fun f => p f) else 0 := by
  split
  · rename_i hw
    apply List.countP_congr
    intro f hf
    have hweek := roundFixtures_week rot r f hf
    simp only [decide_eq_true_eq]
    constructor
    · exact fun h => h.2
    · exact fun h => ⟨by omega, h⟩
  · rename_i hw
    apply List.countP_eq_zero.2
    intro f hf hp
    have hweek := roundFixtures_week rot r f hf
    have h2 := (of_decide_eq_true hp).1
    omega

theorem countP_week_only (rot : List String) (r w : Nat) :
    (roundFixtures rot r).countP (fun f => f.week = w) =
      if r + 1 = w then (roundFixtures rot r).length else 0 := by
  split
  · rename_i hw
    apply List.countP_eq_length.2
    intro f hf
    have hweek := roundFixtures_week rot r f hf
    simp only [decide_eq_true_eq]
    omega
  · rename_i hw
    apply List.countP_eq_zero.2
    intro f hf hp
    have hweek := roundFixtures_week rot r f hf
    have h2 := of_decide_eq_true hp
    omega

theorem sum_range_pick (g : Nat → Nat) (w : Nat) :
    ∀ w' : Nat, ((List.range w').map fun t => if t + 1 = w then g t else 0).sum =
      if 1 ≤ w ∧ w ≤ w' then g (w - 1) else 0
  | 0 => by
    simp only [List.range_zero, List.map_nil, List.sum_nil]
    split
    · omega
    · rfl
  | w' + 1 => by
    rw [List.range_succ, List.map_append, List.sum_append, sum_range_pick g w w']
    simp only [List.map_cons, List.map_nil, List.sum_cons, List.sum_nil, Nat.add_zero]
    by_cases h2 : w' + 1 = w
    · have hc1 : ¬(1 ≤ w ∧ w ≤ w') := by omega
      have hc2 : 1 ≤ w ∧ w ≤ w' + 1 := by omega
      have hc3 : w - 1 = w' := by omega
      rw [if_neg hc1, if_pos h2, if_pos hc2, hc3]
      simp
    · have e3 : (1 ≤ w ∧ w ≤ w' + 1) ↔ (1 ≤ w ∧ w ≤ w') := by omega
      simp [h2, e3]

/-- C1: for an even number `n ≥ 2` of distinct team identifiers (none equal
to the reserved bye sentinel) and `weeks = n - 1`, the generated
round-robin schedule pairs every two distinct teams in exactly one fixture,
and every team plays exactly one fixture in each week `1..weeks`. -/
theorem roundRobin_complete (teamIds : List String) (weeks : Nat)
    (hnd : teamIds.Nodup) (hbyeNot : byeId ∉ teamIds)
    (h2 : 2 ≤ teamIds.length) (heven : teamIds.length % 2 = 0)
    (hw : weeks = teamIds.length - 1) :
    (∀ x ∈ teamIds, ∀ y ∈ teamIds, x ≠ y →
      pairCount (generateRoundRobinSchedule teamIds weeks) x y = 1) ∧
    (∀ w, 1 ≤ w → w ≤ weeks → ∀ x ∈ teamIds,
      weekTeamCount (generateRoundRobinSchedule teamIds weeks) w x = 1) := by
  obtain ⟨x0, tail, rfl⟩ : ∃ x0 tail, teamIds = x0 :: tail := by
    cases teamIds with
    | nil => simp at h2
    | cons a l => exact ⟨a, l, rfl⟩
  have hlen : (x0 :: tail).length = tail.length + 1 := by simp
  rw [hlen] at h2 heven hw
  have hm1 : 1 ≤ tail.length := by omega
  have hgen : generateRoundRobinSchedule (x0 :: tail) weeks =
      (List.range weeks).flatMap fun t => roundFixtures (rotateStep^[t] (x0 :: tail)) t := by
    unfold generateRoundRobinSchedule
    rw [if_neg (by rw [hlen]; omega)]
    dsimp only []
    rw [if_neg (by rw [hlen]; omega)]
    rw [scheduleRounds_eq_flatMap]
    simp only [Nat.zero_add]
  have hrotPerm : ∀ t, (rotateStep^[t] (x0 :: tail)).Perm (x0 :: tail) := fun t =>
    rotateStep_iter_perm _ t
  have hrotNodup : ∀ t, (rotateStep^[t] (x0 :: tail)).Nodup := fun t =>
    ((hrotPerm t).nodup_iff).2 hnd
  have hrotBye : ∀ t, byeId ∉ rotateStep^[t] (x0 :: tail) := fun t hmem =>
    hbyeNot (((hrotPerm t).mem_iff).1 hmem)
  have hrotLen : ∀ t, (rotateStep^[t] (x0 :: tail)).length = tail.length + 1 := fun t => by
    rw [(hrotPerm t).length_eq]
    simp
  refine ⟨?_, ?_⟩
  · intro x hx y hy hxy
    obtain ⟨⟨k, hk⟩, hgk⟩ := List.mem_iff_get.1 hx
    obtain ⟨⟨l, hl⟩, hgl⟩ := List.mem_iff_get.1 hy
    have hk' : k < tail.length + 1 := by rw [hlen] at hk; exact hk
    have hl' : l < tail.length + 1 := by rw [hlen] at hl; exact hl
    have hgkD : (x0 :: tail).getD k "" = x := by rw [List.getD_eq_get _ _ hk]; exact hgk
    have hglD : (x0 :: tail).getD l "" = y := by rw [List.getD_eq_get _ _ hl]; exact hgl
    have hkl : k ≠ l := by
      intro he
      subst he
      exact hxy (by rw [← hgk, ← hgl])
    rw [hgen]
    unfold pairCount
    rw [countP_flatMap]
    have hpt : ∀ t ∈ List.range weeks,
        (roundFixtures (rotateStep^[t] (x0 :: tail)) t).countP (fun f =>
          (f.homeTeamId = x ∧ f.awayTeamId = y) ∨
            (f.homeTeamId = y ∧ f.awayTeamId = x)) =
        if posShift tail.length t k + posShift tail.length t l = tail.length then 1
        else 0 := by
      intro t _
      have hthis := roundFixtures_countP_pair (rotateStep^[t] (x0 :: tail)) t
        (hrotNodup t) (hrotBye t) (by rw [hrotLen t]; omega) (by rw [hrotLen t]; omega)
        x y (posShift tail.length t k) (posShift tail.length t l)
        (by rw [hrotLen t]; exact posShift_lt _ t k hm1 hk')
        (by rw [hrotLen t]; exact posShift_lt _ t l hm1 hl')
        (fun he => hkl (posShift_inj tail.length t hm1 hk' hl' he))
        ((rotAt_getD x0 tail t k hk').trans hgkD)
        ((rotAt_getD x0 tail t l hl').trans hglD)
      rw [hthis, hrotLen t]
      simp only [Nat.add_sub_cancel]
    rw [map_congr_mem _ _ _ hpt, sum_map_ite_count, Nat.one_mul]
    rw [show weeks = tail.length from by omega]
    rcases Nat.eq_zero_or_pos k with hk0 | hk0 <;> rcases Nat.eq_zero_or_pos l with hl0 | hl0
    · exact absurd (hk0.trans hl0.symm) hkl
    · subst hk0
      rw [List.countP_congr (q := fun t =>
        decide ((l - 1 + t) % tail.length = tail.length - 1)) ?_]
      · exact countSolutions_mod_eq tail.length (l - 1) hm1 (by omega)
      · intro t _
        simp only [decide_eq_true_eq]
        unfold posShift
        rw [if_pos rfl, if_neg (by omega)]
        generalize (l - 1 + t) % tail.length = A
        omega
    · subst hl0
      rw [List.countP_congr (q := fun t =>
        decide ((k - 1 + t) % tail.length = tail.length - 1)) ?_]
      · exact countSolutions_mod_eq tail.length (k - 1) hm1 (by omega)
      · intro t _
        simp only [decide_eq_true_eq]
        unfold posShift
        rw [if_pos rfl, if_neg (by omega)]
        generalize (k - 1 + t) % tail.length = A
        omega
    · rw [List.countP_congr (q := fun t =>
        decide ((k - 1 + t) % tail.length + (l - 1 + t) % tail.length =
          tail.length - 2)) ?_]
      · exact countSolutions_pair tail.length (k - 1) (l - 1) (by omega) (by omega)
          (by omega) (by omega)
      · intro t _
        simp only [decide_eq_true_eq]
        unfold posShift
        rw [if_neg (by omega), if_neg (by omega)]
        have hA : (k - 1 + t) % tail.length < tail.length := Nat.mod_lt _ (by omega)
        have hB : (l - 1 + t) % tail.length < tail.length := Nat.mod_lt _ (by omega)
        generalize hga : (k - 1 + t) % tail.length = A at hA ⊢
        generalize hgb : (l - 1 + t) % tail.length = B at hB ⊢
        omega
  · intro w hw1 hw2 x hx
    obtain ⟨⟨k, hk⟩, hgk⟩ := List.mem_iff_get.1 hx
    have hk' : k < tail.length + 1 := by rw [hlen] at hk; exact hk
    have hgkD : (x0 :: tail).getD k "" = x := by rw [List.getD_eq_get _ _ hk]; exact hgk
    rw [hgen]
    unfold weekTeamCount
    rw [countP_flatMap]
    have hpt : ∀ t ∈ List.range weeks,
        (roundFixtures (rotateStep^[t] (x0 :: tail)) t).countP (fun f =>
          f.week = w ∧ (f.homeTeamId = x ∨ f.awayTeamId = x)) =
        if t + 1 = w then 1 else 0 := by
      intro t _
      rw [countP_week_and (rotateStep^[t] (x0 :: tail)) t w
        (fun f => f.homeTeamId = x ∨ f.awayTeamId = x)]
      split
      · exact roundFixtures_countP_team (rotateStep^[t] (x0 :: tail)) t
          (hrotNodup t) (hrotBye t) (by rw [hrotLen t]; omega) (by rw [hrotLen t]; omega)
          x (posShift tail.length t k)
          (by rw [hrotLen t]; exact posShift_lt _ t k hm1 hk')
          ((rotAt_getD x0 tail t k hk').trans hgkD)
      · rfl
    rw [map_congr_mem _ _ _ hpt, sum_range_single]
    rw [if_pos ⟨hw1, hw2⟩]

theorem roundRobin_complete_witness :
    pairCount (generateRoundRobinSchedule ["A", "B", "C", "D"] 3) "A" "C" = 1 ∧
    weekTeamCount (generateRoundRobinSchedule ["A", "B", "C", "D"] 3) 2 "D" = 1 :=
  ⟨(roundRobin_complete ["A", "B", "C", "D"] 3 (by decide) (by decide) (by decide)
      (by decide) rfl).1 "A" (by decide) "C" (by decide) (by decide),
    (roundRobin_complete ["A", "B", "C", "D"] 3 (by decide) (by decide) (by decide)
      (by decide) rfl).2 2 (by decide) (by decide) "D" (by decide)⟩

/-- C1 counterexample: two distinct team ids with `weeks = n - 1 = 1`, but one
team is literally the bye sentinel `__BYE__`; the generator drops its pairing,
so the pair appears in zero fixtures rather than exactly one. -/
theorem roundRobin_complete_cex :
    (["__BYE__", "A"] : List String).Nodup ∧
    (["__BYE__", "A"] : List String).length = 2 ∧
    (["__BYE__", "A"] : List String).length % 2 = 0 ∧
    pairCount (generateRoundRobinSchedule ["__BYE__", "A"] 1) "__BYE__" "A" = 0 := by
  decide

theorem getD_snoc_length : ∀ (l : List String) (a : String),
    (l ++ [a]).getD l.length "" = a
  | [], _ => rfl
  | b :: l, a => by
    rw [List.cons_append, List.length_cons, List.getD_cons_succ]
    exact getD_snoc_length l a

theorem getD_snoc_lt : ∀ (l : List String) (a : String) (k : Nat), k < l.length →
    (l ++ [a]).getD k "" = l.getD k ""
  | [], _, _, h => absurd h (by simp)
  | _ :: _, _, 0, _ => rfl
  | b :: l, a, k + 1, h => by
    rw [List.cons_append, List.getD_cons_succ, List.getD_cons_succ]
    exact getD_snoc_lt l a k (by simp at h; omega)

/-- C8: for an odd number `n ≥ 3` of distinct team ids (none equal to the
bye sentinel) and any number of weeks, every scheduled week `1 ≤ w ≤ weeks`
of `generateRoundRobinSchedule` has exactly `(n - 1) / 2` fixtures and
exactly one team with no fixture that week; and for fewer than two team ids
the schedule is empty. -/
theorem roundRobin_odd_bye (teamIds : List String) (weeks : Nat)
    (hnd : teamIds.Nodup) (hbyeNot : byeId ∉ teamIds)
    (h3 : 3 ≤ teamIds.length) (hodd : teamIds.length % 2 = 1) :
    (∀ w, 1 ≤ w → w ≤ weeks →
      weekFixtureCount (generateRoundRobinSchedule teamIds weeks) w =
        (teamIds.length - 1) / 2 ∧
      (teamIds.countP fun x =>
        weekTeamCount (generateRoundRobinSchedule teamIds weeks) w x = 0) = 1) ∧
    (∀ (ids2 : List String) (weeks2 : Nat), ids2.length < 2 →
      generateRoundRobinSchedule ids2 weeks2 = []) := by
  refine ⟨?_, fun ids2 weeks2 hlt => by
    unfold generateRoundRobinSchedule
    rw [if_pos hlt]⟩
  obtain ⟨x0, rest, rfl⟩ : ∃ x0 rest, teamIds = x0 :: rest := by
    cases teamIds with
    | nil => simp at h3
    | cons a l => exact ⟨a, l, rfl⟩
  have hlen : (x0 :: rest).length = rest.length + 1 := by simp
  rw [hlen] at h3 hodd
  have htl : (rest ++ [byeId]).length = rest.length + 1 := by simp
  have hgen : generateRoundRobinSchedule (x0 :: rest) weeks =
      (List.range weeks).flatMap fun t =>
        roundFixtures (rotateStep^[t] (x0 :: (rest ++ [byeId]))) t := by
    unfold generateRoundRobinSchedule
    rw [if_neg (by rw [hlen]; omega)]
    dsimp only []
    rw [if_pos (by rw [hlen]; omega)]
    rw [show (x0 :: rest) ++ [byeId] = x0 :: (rest ++ [byeId]) from rfl]
    rw [scheduleRounds_eq_flatMap]
    simp only [Nat.zero_add]
  have hndIds : (x0 :: (rest ++ [byeId])).Nodup := by
    rw [show x0 :: (rest ++ [byeId]) = (x0 :: rest) ++ [byeId] from rfl, List.nodup_append]
    exact ⟨hnd, List.nodup_singleton _, fun a ha hb => by
      simp only [List.mem_singleton] at hb
      exact hbyeNot (hb ▸ ha)⟩
  have hrotPerm : ∀ t, (rotateStep^[t] (x0 :: (rest ++ [byeId]))).Perm
      (x0 :: (rest ++ [byeId])) := fun t => rotateStep_iter_perm _ t
  have hrotNodup : ∀ t, (rotateStep^[t] (x0 :: (rest ++ [byeId]))).Nodup := fun t =>
    ((hrotPerm t).nodup_iff).2 hndIds
  have hrotLen : ∀ t, (rotateStep^[t] (x0 :: (rest ++ [byeId]))).length =
      rest.length + 1 + 1 := fun t => by
    rw [(hrotPerm t).length_eq, List.length_cons, htl]
  have hbyeIdx : (x0 :: (rest ++ [byeId])).getD (rest.length + 1) "" = byeId := by
    rw [List.getD_cons_succ]
    exact getD_snoc_length rest byeId
  have hidsD : ∀ k, k < rest.length + 1 →
      (x0 :: (rest ++ [byeId])).getD k "" = (x0 :: rest).getD k "" := by
    intro k hk
    cases k with
    | zero => rfl
    | succ k' =>
      rw [List.getD_cons_succ, List.getD_cons_succ]
      exact getD_snoc_lt rest byeId k' (by omega)
  have hrotD : ∀ t k, k < rest.length + 1 + 1 →
      (rotateStep^[t] (x0 :: (rest ++ [byeId]))).getD
        (posShift (rest.length + 1) t k) "" = (x0 :: (rest ++ [byeId])).getD k "" := by
    intro t k hk
    have h := rotAt_getD x0 (rest ++ [byeId]) t k (by rw [htl]; omega)
    rwa [htl] at h
  intro w hwa hwb
  constructor
  · rw [hgen]
    unfold weekFixtureCount
    rw [countP_flatMap]
    have hpt : ∀ t ∈ List.range weeks,
        (roundFixtures (rotateStep^[t] (x0 :: (rest ++ [byeId]))) t).countP
          (fun f => f.week = w) =
        if t + 1 = w then rest.length / 2 else 0 := by
      intro t _
      rw [countP_week_only]
      split
      · rw [roundFixtures_length_bye _ t (hrotNodup t) (by rw [hrotLen t]; omega)
          (by rw [hrotLen t]; omega) (posShift (rest.length + 1) t (rest.length + 1))
          (by rw [hrotLen t]
              exact posShift_lt _ t _ (by omega) (by omega))
          ((hrotD t (rest.length + 1) (by omega)).trans hbyeIdx)]
        rw [hrotLen t]
        omega
      · rfl
    rw [map_congr_mem _ _ _ hpt, sum_range_single, if_pos ⟨hwa, hwb⟩, hlen]
    omega
  · have hform : ∀ (x : String) (k : Nat), k < rest.length + 1 →
        (x0 :: rest).getD k "" = x →
        weekTeamCount (generateRoundRobinSchedule (x0 :: rest) weeks) w x =
          if posShift (rest.length + 1) (w - 1) k =
              rest.length + 1 -
                posShift (rest.length + 1) (w - 1) (rest.length + 1) then 0
          else 1 := by
      intro x k hkb hgk
      rw [hgen]
      unfold weekTeamCount
      rw [countP_flatMap]
      have hpt : ∀ t ∈ List.range weeks,
          (roundFixtures (rotateStep^[t] (x0 :: (rest ++ [byeId]))) t).countP
            (fun f => f.week = w ∧ (f.homeTeamId = x ∨ f.awayTeamId = x)) =
          if t + 1 = w then
            (if posShift (rest.length + 1) t k =
                rest.length + 1 - posShift (rest.length + 1) t (rest.length + 1) then 0
              else 1)
          else 0 := by
        intro t _
        rw [countP_week_and]
        split
        · have hne : posShift (rest.length + 1) t k ≠
              posShift (rest.length + 1) t (rest.length + 1) := fun he => by
            have := posShift_inj (rest.length + 1) t (by omega)
              (show k < rest.length + 1 + 1 by omega)
              (show rest.length + 1 < rest.length + 1 + 1 by omega) he
            omega
          rw [roundFixtures_countP_team_bye _ t (hrotNodup t) (by rw [hrotLen t]; omega)
            (by rw [hrotLen t]; omega) x (posShift (rest.length + 1) t k)
            (posShift (rest.length + 1) t (rest.length + 1))
            (by rw [hrotLen t]
                exact posShift_lt _ t k (by omega) (by omega))
            (by rw [hrotLen t]
                exact posShift_lt _ t _ (by omega) (by omega))
            hne
            ((hrotD t k (by omega)).trans ((hidsD k hkb).trans hgk))
            ((hrotD t (rest.length + 1) (by omega)).trans hbyeIdx)]
          rw [hrotLen t]
          have he : rest.length + 1 + 1 - 1 -
              posShift (rest.length + 1) t (rest.length + 1) =
              rest.length + 1 - posShift (rest.length + 1) t (rest.length + 1) := by
            omega
          rw [he]
        · rfl
      rw [map_congr_mem _ _ _ hpt, sum_range_pick, if_pos ⟨hwa, hwb⟩]
    have hble : posShift (rest.length + 1) (w - 1) (rest.length + 1) <
        rest.length + 1 + 1 := posShift_lt _ _ _ (by omega) (by omega)
    have hbne : posShift (rest.length + 1) (w - 1) (rest.length + 1) ≠
        rest.length + 1 - posShift (rest.length + 1) (w - 1) (rest.length + 1) := by
      intro he
      omega
    have hcmem_rot : (rotateStep^[w - 1] (x0 :: (rest ++ [byeId]))).getD
        (rest.length + 1 - posShift (rest.length + 1) (w - 1) (rest.length + 1)) "" ∈
        rotateStep^[w - 1] (x0 :: (rest ++ [byeId])) := by
      rw [List.getD_eq_get _ _ (by rw [hrotLen]; omega)]
      exact List.get_mem _ _ _
    have hcne_bye : (rotateStep^[w - 1] (x0 :: (rest ++ [byeId]))).getD
        (rest.length + 1 - posShift (rest.length + 1) (w - 1) (rest.length + 1)) "" ≠
        byeId := by
      intro he
      have hb2 : (rotateStep^[w - 1] (x0 :: (rest ++ [byeId]))).getD
          (posShift (rest.length + 1) (w - 1) (rest.length + 1)) "" = byeId :=
        (hrotD (w - 1) (rest.length + 1) (by omega)).trans hbyeIdx
      have heq := getD_inj _ (hrotNodup (w - 1)) (by rw [hrotLen]; omega)
        (by rw [hrotLen]; omega) (he.trans hb2.symm)
      omega
    have hcmem : (rotateStep^[w - 1] (x0 :: (rest ++ [byeId]))).getD
        (rest.length + 1 - posShift (rest.length + 1) (w - 1) (rest.length + 1)) "" ∈
        x0 :: rest := by
      have hmem2 := ((hrotPerm (w - 1)).mem_iff).1 hcmem_rot
      rw [show x0 :: (rest ++ [byeId]) = (x0 :: rest) ++ [byeId] from rfl] at hmem2
      rcases List.mem_append.1 hmem2 with h | h
      · exact h
      · exact absurd (by simpa using h) hcne_bye
    obtain ⟨⟨kc, hkc⟩, hgkc⟩ := List.mem_iff_get.1 hcmem
    have hkc' : kc < rest.length + 1 := by rw [hlen] at hkc; exact hkc
    have hgkcD : (x0 :: rest).getD kc "" =
        (rotateStep^[w - 1] (x0 :: (rest ++ [byeId]))).getD
          (rest.length + 1 - posShift (rest.length + 1) (w - 1) (rest.length + 1)) "" := by
      rw [List.getD_eq_get _ _ hkc]
      exact hgkc
    have hposc : posShift (rest.length + 1) (w - 1) kc =
        rest.length + 1 - posShift (rest.length + 1) (w - 1) (rest.length + 1) := by
      have hlt1 : posShift (rest.length + 1) (w - 1) kc <
          (rotateStep^[w - 1] (x0 :: (rest ++ [byeId]))).length := by
        rw [hrotLen]
        exact posShift_lt _ _ kc (by omega) (by omega)
      have hlt2 : rest.length + 1 - posShift (rest.length + 1) (w - 1) (rest.length + 1) <
          (rotateStep^[w - 1] (x0 :: (rest ++ [byeId]))).length := by
        rw [hrotLen]
        omega
      apply getD_inj _ (hrotNodup (w - 1)) hlt1 hlt2
      rw [(hrotD (w - 1) kc (by omega)).trans ((hidsD kc hkc').trans hgkcD)]
    have h0 : weekTeamCount (generateRoundRobinSchedule (x0 :: rest) weeks) w
        ((rotateStep^[w - 1] (x0 :: (rest ++ [byeId]))).getD
          (rest.length + 1 - posShift (rest.length + 1) (w - 1) (rest.length + 1)) "") =
        0 := by
      rw [hform _ kc hkc' hgkcD, if_pos hposc]
    apply countP_eq_one_of_unique hnd _ hcmem (decide_eq_true h0)
    intro b hb hpb
    obtain ⟨⟨kb2, hkb2⟩, hgkb2⟩ := List.mem_iff_get.1 hb
    have hkb2' : kb2 < rest.length + 1 := by rw [hlen] at hkb2; exact hkb2
    have hgkb2D : (x0 :: rest).getD kb2 "" = b := by
      rw [List.getD_eq_get _ _ hkb2]
      exact hgkb2
    have h0b := of_decide_eq_true hpb
    rw [hform b kb2 hkb2' hgkb2D] at h0b
    by_cases hcond : posShift (rest.length + 1) (w - 1) kb2 =
        rest.length + 1 - posShift (rest.length + 1) (w - 1) (rest.length + 1)
    · rw [← hgkb2D, ← hidsD kb2 hkb2', ← hrotD (w - 1) kb2 (by omega), hcond]
    · rw [if_neg hcond] at h0b
      exact absurd h0b one_ne_zero

/-- C8 counterexample: three distinct team ids, one of them literally the bye
sentinel `__BYE__`; after padding, the working list holds the sentinel twice
and week 2 drops both of its pairings, yielding zero fixtures rather than
`(n - 1) / 2 = 1`. -/
theorem roundRobin_odd_bye_cex :
    (["__BYE__", "A", "B"] : List String).Nodup ∧
    (["__BYE__", "A", "B"] : List String).length = 3 ∧
    (["__BYE__", "A", "B"] : List String).length % 2 = 1 ∧
    weekFixtureCount (generateRoundRobinSchedule ["__BYE__", "A", "B"] 2) 2 = 0 := by
  decide

theorem roundRobin_odd_bye_witness :
    weekFixtureCount (generateRoundRobinSchedule ["A", "B", "C"] 2) 1 =
        ((["A", "B", "C"] : List String).length - 1) / 2 ∧
    ((["A", "B", "C"] : List String).countP fun x =>
      weekTeamCount (generateRoundRobinSchedule ["A", "B", "C"] 2) 1 x = 0) = 1 ∧
    generateRoundRobinSchedule ["X"] 7 = [] :=
  ⟨((roundRobin_odd_bye ["A", "B", "C"] 2 (by decide) (by decide) (by decide)
      (by decide)).1 1 (by decide) (by decide)).1,
    ((roundRobin_odd_bye ["A", "B", "C"] 2 (by decide) (by decide) (by decide)
      (by decide)).1 1 (by decide) (by decide)).2,
    (roundRobin_odd_bye ["A", "B", "C"] 2 (by decide) (by decide) (by decide)
      (by decide)).2 ["X"] 7 (by decide)⟩

end FantasyLite
